import Mathlib

/-!
Verification development for the thermo repository (GPUMD post-processing).

The development shallowly embeds the Python sources under src/thermo/gpumd
into Lean. Machine floats are modelled by exact rationals, numpy arrays by
lists, and the mutable analysis dictionary by an association list together
with an explicit exit state: a function that mutates its dictionary argument
and may raise is embedded as a map to the pair of the dictionary at exit and
an optional raised error. Functions of this repository that are imported by
src/thermo/gpumd/calc.py but whose files are not under src (corr from
thermo/math/correlate.py and __get_direction from thermo/gpumd/data.py) are
modelled from the specification and marked as such in their doc comments.
External library routines (numpy linspace and elementwise operations, scipy
cumtrapz) are embedded following their documented behaviour at the call
sites used by the repository.
-/

/-- Value stored under a key of an analysis dictionary: a 1-D or a 2-D
numeric array (numpy ndarray of floats, modelled over the rationals). -/
inductive Val where
  | a1 : List ℚ → Val
  | a2 : List (List ℚ) → Val
deriving DecidableEq

/-- Analysis dictionary: insertion-ordered association list of named arrays,
modelling the Python dict that load_heatmode and load_shc produce and that
calc.py extends in place. -/
abbrev DataDict := List (String × Val)

/-- Errors raised by the embedded code. Python raises ValueError with a
message, ZeroDivisionError for float division by zero, IndexError for bad
array indexing; the spec-modelled Correlator raises InvalidInput. -/
inductive Err where
  | valueError : String → Err
  | zeroDivisionError : Err
  | indexError : Err
  | invalidInput : String → Err
deriving DecidableEq

/-- Lookup of a key in the dictionary (first matching entry). -/
def dlookup : DataDict → String → Option Val
  | [], _ => none
  | (k2, v) :: rest, k => if k2 = k then some v else dlookup rest k

/-- Replacement of the value at an existing key (first matching entry). -/
def dset : DataDict → String → Val → DataDict
  | [], _, _ => []
  | (k2, v2) :: rest, k, v => if k2 = k then (k, v) :: rest else (k2, v2) :: dset rest k v

/-- Python dict assignment d[k] = v: overwrite if the key is present,
append a new entry otherwise. -/
def dinsert (d : DataDict) (k : String) (v : Val) : DataDict :=
  if (dlookup d k).isSome then dset d k v else d ++ [(k, v)]

theorem dlookup_dset_ne (d : DataDict) (k k2 : String) (v : Val) (h : k2 ≠ k) :
    dlookup (dset d k v) k2 = dlookup d k2 := by
  induction d with
  | nil => simp [dset]
  | cons hd tl ih =>
    obtain ⟨k1, v1⟩ := hd
    by_cases h1 : k1 = k
    · subst h1
      have hne : ¬ (k1 = k2) := fun hh => h hh.symm
      simp only [dset, if_pos rfl, dlookup, if_neg hne]
    · simp only [dset, if_neg h1, dlookup]
      by_cases h2 : k1 = k2
      · simp [h2]
      · simp [h2, ih]

theorem dlookup_dset_self (d : DataDict) (k : String) (v : Val)
    (h : (dlookup d k).isSome) : dlookup (dset d k v) k = some v := by
  induction d with
  | nil => simp [dlookup] at h
  | cons hd tl ih =>
    obtain ⟨k1, v1⟩ := hd
    by_cases h1 : k1 = k
    · subst h1
      simp [dset, dlookup]
    · simp only [dlookup, if_neg h1] at h
      simp [dset, dlookup, h1, ih h]

theorem dlookup_append (d1 d2 : DataDict) (k : String) :
    dlookup (d1 ++ d2) k = ((dlookup d1 k).or (dlookup d2 k)) := by
  induction d1 with
  | nil => simp [dlookup]
  | cons hd tl ih =>
    obtain ⟨k1, v1⟩ := hd
    by_cases h : k1 = k <;> simp [dlookup, h, ih]

theorem dlookup_dinsert (d : DataDict) (k k2 : String) (v : Val) :
    dlookup (dinsert d k v) k2 = if k2 = k then some v else dlookup d k2 := by
  by_cases h2 : k2 = k
  · subst h2
    cases hl : dlookup d k2 with
    | some v2 =>
      have hs : (dlookup d k2).isSome := by simp [hl]
      simp [dinsert, hs, dlookup_dset_self d k2 v hs]
    | none =>
      have hs : (dlookup d k2).isSome = false := by simp [hl]
      simp [dinsert, hs, dlookup_append, hl, dlookup]
  · cases hl : dlookup d k with
    | some v2 =>
      have hs : (dlookup d k).isSome := by simp [hl]
      simp [dinsert, hs, dlookup_dset_ne d k k2 v h2, if_neg h2]
    | none =>
      have hs : (dlookup d k).isSome = false := by simp [hl]
      have hne : ¬ (k = k2) := fun hh => h2 hh.symm
      simp [dinsert, hs, dlookup_append, dlookup, if_neg hne, if_neg h2]

theorem dlookup_dinsert_ne (d : DataDict) (k k2 : String) (v : Val) (h : k2 ≠ k) :
    dlookup (dinsert d k v) k2 = dlookup d k2 := by
  rw [dlookup_dinsert, if_neg h]

/-- Embeds __scale_gpumd_tc of src/thermo/gpumd/calc.py: the unit conversion
factor from GPUMD heat-flux correlation units to W/m/K, a pure function of
the cell volume (cubic angstroms) and the temperature (kelvin). -/
def __scale_gpumd_tc (vol T : ℚ) : ℚ :=
  let one := 1.602176634e-19 * 9.651599e7
  let two := 1 / 1e15
  let three := 1e30 / 8.617333262145e-5
  one * two * three / (T * T * vol)

/-- Tail of the running trapezoid sums: acc is the integral so far, yp and
xp the previous ordinate and abscissa. -/
def ctGo : ℚ → ℚ → ℚ → List ℚ → List ℚ → List ℚ
  | _, _, _, [], _ => []
  | _, _, _, _ :: _, [] => []
  | acc, yp, xp, y1 :: ys, x1 :: xs =>
    (acc + (x1 - xp) * (y1 + yp) / 2) :: ctGo (acc + (x1 - xp) * (y1 + yp) / 2) y1 x1 ys xs

/-- Embeds scipy.integrate.cumtrapz(y, x, initial=0): the running trapezoidal
integral of y against x, preceded by the explicit initial value 0, so the
output has the same length as y. All call sites in calc.py pass y and x of
equal length; on an empty y scipy returns the single initial value. -/
def cumtrapz (y x : List ℚ) : List ℚ :=
  match y, x with
  | y0 :: ys, x0 :: xs => 0 :: ctGo 0 y0 x0 ys xs
  | _, _ => [0]

/-- Elementwise float division of numpy arrays, with the non-finite results
of a zero denominator (inf, -inf or nan, which numpy produces instead of
raising) modelled as none. -/
def pyDiv (a b : ℚ) : Option ℚ :=
  if b = 0 then none else some (a / b)

/-- Embeds running_ave of src/thermo/gpumd/calc.py: the cumulative
trapezoidal integral of kappa over time, divided elementwise by time. -/
def running_ave (kappa time : List ℚ) : List (Option ℚ) :=
  List.zipWith pyDiv (cumtrapz kappa time) time

/-- Scaling of one heat-current array by convert/(Fe*T*V), elementwise on
either array kind, as numpy broadcasting performs it. -/
def hnemdScale (v : Val) (Fe T V : ℚ) : Val :=
  match v with
  | .a1 l => .a1 (l.map fun j => j * 1602.17662 / (Fe * T * V))
  | .a2 r => .a2 (r.map fun row => row.map fun j => j * 1602.17662 / (Fe * T * V))

/-- Embeds hnemd_spectral_kappa of src/thermo/gpumd/calc.py: checks that the
J_in and J_out channels are present, then adds k_in and k_out, each the
corresponding input array scaled by 1602.17662/(Fe*T*V). The Python function
mutates shc in place and returns None; the embedding returns the dictionary
at exit together with the optional raised error. -/
def hnemd_spectral_kappa (shc : DataDict) (Fe T V : ℚ) : DataDict × Option Err :=
  match dlookup shc "J_in", dlookup shc "J_out" with
  | some vin, some vout =>
    let st := dinsert shc "k_in" (hnemdScale vin Fe T V)
    (dinsert st "k_out" (hnemdScale vout Fe T V), none)
  | _, _ =>
    (shc, some (.valueError "shc argument must be from load_shc and contain in/out heat currents."))

/-- Coordinate of an atom position selected by the direction string, as in
__get_group of src/thermo/gpumd/preproc.py: the x entry for direction x, the
y entry for direction y, the z entry for every other string. -/
def coordOf (direction : String) (pos : ℚ × ℚ × ℚ) : ℚ :=
  if direction = "x" then pos.1 else if direction = "y" then pos.2.1 else pos.2.2

/-- Loop of __get_group over enumerate(split[:-1]) carrying the index i:
the patterns with fewer than two remaining elements are the loop ending
without a match, which falls through to return -1. -/
def ggLoop (d : ℚ) : ℕ → List ℚ → ℤ
  | _, [] => -1
  | _, [_] => -1
  | i, v :: w :: rest =>
    if i = 0 ∧ d < v then -1
    else if v ≤ d ∧ d < w then (i : ℤ)
    else ggLoop d (i + 1) (w :: rest)

/-- Embeds __get_group of src/thermo/gpumd/preproc.py: the index of the
half-open boundary interval of split containing the selected coordinate,
or -1 (after printing an out-of-bounds message, an effect not modelled)
when the coordinate is below the first boundary or matches no interval. -/
def __get_group (split : List ℚ) (pos : ℚ × ℚ × ℚ) (direction : String) : ℤ :=
  ggLoop (coordOf direction pos) 0 split

/-- Atom record: the position and the mutable group tag of an ase Atom. -/
structure AtomT where
  position : ℚ × ℚ × ℚ
  tag : ℤ
deriving DecidableEq

/-- Python list element increment l[i] += 1, with negative indices counting
from the end and an IndexError (none) outside -len..len-1. -/
def pyIncr (l : List ℤ) (i : ℤ) : Option (List ℤ) :=
  let j := if i < 0 then i + l.length else i
  if 0 ≤ j ∧ j < l.length then some (l.set j.toNat (l[j.toNat]! + 1)) else none

/-- Loop of assign_groups over the atoms, threading the counts list. Python
mutates atom tags in place and aborts on an IndexError from the counts
update; the embedding returns none in that case. -/
def assignGo (split : List ℚ) (direction : String) : List AtomT → List ℤ → Option (List AtomT × List ℤ)
  | [], counts => some ([], counts)
  | a :: rest, counts =>
    let i := __get_group split a.position direction
    match pyIncr counts i with
    | none => none
    | some counts2 =>
      match assignGo split direction rest counts2 with
      | none => none
      | some (ats, cs) => some ({ a with tag := i } :: ats, cs)

/-- Embeds assign_groups of src/thermo/gpumd/preproc.py: tags every atom
with its group from __get_group and counts the atoms per group, starting
from one zero per boundary interval. -/
def assign_groups (split : List ℚ) (atoms : List AtomT) (direction : String) : Option (List AtomT × List ℤ) :=
  assignGo split direction atoms (List.replicate (split.length - 1) 0)

/-- Elementwise sum of two 1-D numpy arrays; call sites pass equal lengths. -/
def addVec (a b : List ℚ) : List ℚ := List.zipWith (· + ·) a b

/-- Elementwise sum of two 2-D numpy arrays; call sites pass equal shapes. -/
def add2 (a b : List (List ℚ)) : List (List ℚ) := List.zipWith addVec a b

/-- Embeds np.sum(arr, axis=0) on a 2-D array: the columnwise sum of the
rows; on zero rows the result has zero width in this list model, and it is
then only used as the reference series of an empty mode loop. -/
def npSum0 : List (List ℚ) → List ℚ
  | [] => []
  | [r] => r
  | r :: rs => addVec r (npSum0 rs)

/-- Row of zeros, one row of np.zeros((nbins, size)). -/
def zerosRow (n : ℕ) : List ℚ := List.replicate n 0

/-- Embeds np.zeros((m, n)). -/
def zeros2 (m n : ℕ) : List (List ℚ) := List.replicate m (zerosRow n)

/-- Embeds np.linspace(start, stop, num) with an integer num as calc.py
calls it: a ValueError for a negative number of samples, else num evenly
spaced points from start towards stop. With num = 1 numpy returns [start],
which the formula also yields since division by zero is zero here. -/
def pyLinspace (start stop : ℚ) (num : ℤ) : Except Err (List ℚ) :=
  if num < 0 then .error (.valueError "Number of samples must be non-negative")
  else .ok ((List.range num.toNat).map fun k => start + (k : ℚ) * ((stop - start) / ((num : ℚ) - 1)))

/-- Modelled from the spec: corr lives in thermo/math/correlate.py, which is
not under src. Spec section 4.1 gives the contract: for series a and b and
an integer max_lag with 0 ≤ max_lag < len(a), element k of the result is
C(k) = (1/(N-k)) * Σ over t of conj(a[t]) * b[t+k]; mismatched lengths and
an out-of-range lag are InvalidInput failures. The repository feeds it
real-valued data, on which conj is the identity, so the model is rational. -/
def corr (a b : List ℚ) (maxLag : ℤ) : Except Err (List ℚ) :=
  if a.length ≠ b.length then .error (.invalidInput "corr: series length mismatch")
  else if maxLag < 0 ∨ (a.length : ℤ) ≤ maxLag then .error (.invalidInput "corr: lag out of range")
  else .ok ((List.range (maxLag.toNat + 1)).map fun k =>
    ((List.range (a.length - k)).foldl (fun s t => s + a[t]! * b[t + k]!) 0) / ((a.length : ℚ) - (k : ℚ)))

/-- Modelled from the spec: __get_direction lives in thermo/gpumd/data.py,
which is not under src. Spec section 4.4 calls the selector string any
non-empty subset or ordering of xyz; the model resolves the string to its
characters, which the engine tests for membership of x, y and z. -/
def get_direction (s : String) : List Char := s.toList

/-- Extraction of a channel as a 2-D array. The engine has already checked
presence; a 1-D value under the key would fail inside numpy indexing, which
the IndexError constructor stands for. -/
def getArr2 (d : DataDict) (k : String) : Except Err (List (List ℚ)) :=
  match dlookup d k with
  | some (.a2 r) => .ok r
  | _ => .error .indexError

/-- Embeds the row read data[key][m, :] of a plain 2-D list with an
IndexError outside the row range. -/
def getRow (a : List (List ℚ)) (m : ℕ) : Except Err (List ℚ) :=
  if h : m < a.length then .ok (a.get ⟨m, h⟩) else .error .indexError

/-- Embeds the row write data[key][m, :] = v: the key is present as a 2-D
array at every call site, and the row length and index fit by construction. -/
def setRow (st : DataDict) (k : String) (m : ℕ) (v : List ℚ) : DataDict :=
  match dlookup st k with
  | some (.a2 rows) => dset st k (.a2 (rows.set m v))
  | _ => st

/-- Per-mode loop of an in/out direction block of get_gkma_kappa (x and y):
for each mode m, correlate the in-channel row against the direction sum,
store it, store its scaled cumulative trapezoidal integral, then the same
for the out-channel row. A raised error stops the loop with the dictionary
as already mutated. -/
def loop2 (xi xo : List (List ℚ)) (jref tau : List ℚ) (maxLag : ℤ) (scale : ℚ)
    (kci kki kco kko : String) : List ℕ → DataDict → DataDict × Option Err
  | [], st => (st, none)
  | m :: ms, st =>
    match getRow xi m with
    | .error e => (st, some e)
    | .ok rowi =>
      match corr rowi jref maxLag with
      | .error e => (st, some e)
      | .ok c1 =>
        let st1 := setRow st kci m c1
        let st2 := setRow st1 kki m ((cumtrapz c1 tau).map (· * scale))
        match getRow xo m with
        | .error e => (st2, some e)
        | .ok rowo =>
          match corr rowo jref maxLag with
          | .error e => (st2, some e)
          | .ok c2 =>
            let st3 := setRow st2 kco m c2
            let st4 := setRow st3 kko m ((cumtrapz c2 tau).map (· * scale))
            loop2 xi xo jref tau maxLag scale kci kki kco kko ms st4

/-- Per-mode loop of the z block of get_gkma_kappa: one channel, one
correlation and one scaled integral per mode. -/
def loop1 (xi : List (List ℚ)) (jref tau : List ℚ) (maxLag : ℤ) (scale : ℚ)
    (kc kk : String) : List ℕ → DataDict → DataDict × Option Err
  | [], st => (st, none)
  | m :: ms, st =>
    match getRow xi m with
    | .error e => (st, some e)
    | .ok rowi =>
      match corr rowi jref maxLag with
      | .error e => (st, some e)
      | .ok c1 =>
        let st1 := setRow st kc m c1
        let st2 := setRow st1 kk m ((cumtrapz c1 tau).map (· * scale))
        loop1 xi jref tau maxLag scale kc kk ms st2

/-- In/out direction block of get_gkma_kappa (lines 116 to 131 for x, 133 to
148 for y): presence check of the two channels with the per-direction
ValueError, direction reference sum, allocation of the four result arrays as
zeros, then the per-mode loop. -/
def block2 (st : DataDict) (kin kout kci kco kki kko : String) (errmsg : String)
    (nbins size : ℕ) (tau : List ℚ) (maxLag : ℤ) (scale : ℚ) : DataDict × Option Err :=
  if (dlookup st kin).isSome = false ∨ (dlookup st kout).isSome = false then
    (st, some (.valueError errmsg))
  else
    match getArr2 st kin with
    | .error e => (st, some e)
    | .ok xi =>
      match getArr2 st kout with
      | .error e => (st, some e)
      | .ok xo =>
        let jref := npSum0 (add2 xi xo)
        let st1 := dinsert st kci (.a2 (zeros2 nbins size))
        let st2 := dinsert st1 kco (.a2 (zeros2 nbins size))
        let st3 := dinsert st2 kki (.a2 (zeros2 nbins size))
        let st4 := dinsert st3 kko (.a2 (zeros2 nbins size))
        loop2 xi xo jref tau maxLag scale kci kki kco kko (List.range nbins) st4

/-- Single-channel direction block of get_gkma_kappa (lines 150 to 160):
presence check of the z channel, reference sum, allocation of the two
result arrays as zeros, then the per-mode loop. -/
def block1 (st : DataDict) (kin kc kk : String) (errmsg : String)
    (nbins size : ℕ) (tau : List ℚ) (maxLag : ℤ) (scale : ℚ) : DataDict × Option Err :=
  if (dlookup st kin).isSome = false then
    (st, some (.valueError errmsg))
  else
    match getArr2 st kin with
    | .error e => (st, some e)
    | .ok xi =>
      let jref := npSum0 xi
      let st1 := dinsert st kc (.a2 (zeros2 nbins size))
      let st2 := dinsert st1 kk (.a2 (zeros2 nbins size))
      loop1 xi jref tau maxLag scale kc kk (List.range nbins) st2

/-- Sequencing of mutating steps with exception propagation: a raised error
skips the remaining steps, keeping the dictionary as mutated so far. -/
def chain (r : DataDict × Option Err) (f : DataDict → DataDict × Option Err) : DataDict × Option Err :=
  match r with
  | (st, none) => f st
  | (st, some e) => (st, some e)

/-- Final in-place rescale of the lag axis (line 162 of calc.py):
data[tau] = data[tau] / 1.e6. The key is present as a 1-D array whenever
this line is reached. -/
def rescaleTau (st : DataDict) : DataDict :=
  match dlookup st "tau" with
  | some (.a1 l) => dinsert st "tau" (.a1 (l.map (· / 1e6)))
  | _ => st

/-- Embeds get_gkma_kappa of src/thermo/gpumd/calc.py (the output-path,
save-to-file and return_data plumbing of lines 89 to 92 and 164 to 169 is
file I/O, outside the embedding; the result is the dictionary at exit plus
the optional raised error). Order of operations follows the source: unit
scale (a float ZeroDivisionError if T*T*vol is zero), sampling time srate,
total time, resolution of max_tau (nanoseconds to femtoseconds), max lag as
the floor of max_tau over srate (a float ZeroDivisionError if srate is
zero), lag axis via linspace written under tau (np.squeeze of a 1-D array
is modelled as the identity), then the x, y and z direction blocks, then
the in-place rescale of tau to nanoseconds. -/
def get_gkma_kappa (data : DataDict) (nbins nsamples : ℕ) (dt : ℚ) (sample_interval : ℕ)
    (T vol : ℚ) (max_tau : Option ℚ) (directions : String) : DataDict × Option Err :=
  if T * T * vol = 0 then (data, some .zeroDivisionError)
  else
    let scale := __scale_gpumd_tc vol T
    let srate := (sample_interval : ℚ) * dt
    let tot_time := srate * ((nsamples : ℚ) - 1)
    let mt := match max_tau with | none => tot_time | some v => v * 1e6
    if srate = 0 then (data, some .zeroDivisionError)
    else
      let maxLag : ℤ := ⌊mt / srate⌋
      let size := (maxLag + 1).toNat
      match pyLinspace 0 ((maxLag : ℚ) * srate) (maxLag + 1) with
      | .error e => (data, some e)
      | .ok tau =>
        let st0 := dinsert data "tau" (.a1 tau)
        let dirs := get_direction directions
        chain (chain (chain
          (if 'x' ∈ dirs then
            block2 st0 "jmxi" "jmxo" "corr_xmi_x" "corr_xmo_x" "kmxi" "kmxo"
              "x direction data is missing" nbins size tau maxLag scale
          else (st0, none))
          (fun st => if 'y' ∈ dirs then
            block2 st "jmyi" "jmyo" "corr_ymi_y" "corr_ymo_y" "kmyi" "kmyo"
              "y direction data is missing" nbins size tau maxLag scale
          else (st, none)))
          (fun st => if 'z' ∈ dirs then
            block1 st "jmz" "corr_zm_z" "kmz"
              "z direction data is missing" nbins size tau maxLag scale
          else (st, none)))
          (fun st => (rescaleTau st, none))

theorem scale_gpumd_closed (vol T : ℚ) :
    __scale_gpumd_tc vol T =
      1.602176634e-19 * 9.651599e7 * (1 / 1e15) * (1e30 / 8.617333262145e-5) / (T ^ 2 * vol) := by
  simp only [__scale_gpumd_tc]
  ring

/-- C3: for all T and vol, the unit scaler __scale_gpumd_tc(vol, T) equals
exactly the closed-form product of the fixed constants
(1.602176634e-19 * 9.651599e7) * (1/1e15) * (1e30 / 8.617333262145e-5)
divided by T squared times vol; the constants appear as fixed literals in
the definition, not re-derived. -/
theorem C3_scale_gpumd_tc_closed_form (vol T : ℚ) :
    __scale_gpumd_tc vol T =
      1.602176634e-19 * 9.651599e7 * (1 / 1e15) * (1e30 / 8.617333262145e-5) / (T ^ 2 * vol) :=
  scale_gpumd_closed vol T

/-- C8: the unit scaler is strictly decreasing in T at fixed vol and
strictly decreasing in vol at fixed T, on positive arguments. -/
theorem C8_scale_gpumd_tc_strict_decreasing :
    (∀ vol T1 T2 : ℚ, 0 < vol → 0 < T1 → T1 < T2 →
      __scale_gpumd_tc vol T2 < __scale_gpumd_tc vol T1) ∧
    (∀ T vol1 vol2 : ℚ, 0 < T → 0 < vol1 → vol1 < vol2 →
      __scale_gpumd_tc vol2 T < __scale_gpumd_tc vol1 T) := by
  have hc : (0:ℚ) < 1.602176634e-19 * 9.651599e7 * (1 / 1e15) * (1e30 / 8.617333262145e-5) := by
    norm_num
  constructor
  · intro vol T1 T2 hv h1 h12
    rw [scale_gpumd_closed, scale_gpumd_closed]
    have hlt : T1 ^ 2 * vol < T2 ^ 2 * vol :=
      mul_lt_mul_of_pos_right (pow_lt_pow_left₀ h12 h1.le (by norm_num)) hv
    exact div_lt_div_of_pos_left hc (by positivity) hlt
  · intro T vol1 vol2 hT h1 h12
    rw [scale_gpumd_closed, scale_gpumd_closed]
    have hlt : T ^ 2 * vol1 < T ^ 2 * vol2 :=
      mul_lt_mul_of_pos_left h12 (pow_pos hT 2)
    exact div_lt_div_of_pos_left hc (by positivity) hlt

theorem C8_scale_gpumd_tc_strict_decreasing_witness :
    ((0:ℚ) < 1 ∧ (0:ℚ) < 2) ∧
    __scale_gpumd_tc 1 2 < __scale_gpumd_tc 1 1 ∧
    __scale_gpumd_tc 2 1 < __scale_gpumd_tc 1 1 :=
  ⟨⟨by norm_num, by norm_num⟩,
    C8_scale_gpumd_tc_strict_decreasing.1 1 1 2 (by norm_num) (by norm_num) (by norm_num),
    C8_scale_gpumd_tc_strict_decreasing.2 1 1 2 (by norm_num) (by norm_num) (by norm_num)⟩

theorem ctGo_length (acc yp xp : ℚ) (ys xs : List ℚ) :
    (ctGo acc yp xp ys xs).length = min ys.length xs.length := by
  induction ys generalizing acc yp xp xs with
  | nil => simp [ctGo]
  | cons y1 ytl ih =>
    cases xs with
    | nil => simp [ctGo]
    | cons x1 xtl => simp [ctGo, ih, Nat.succ_min_succ]

theorem cumtrapz_length (y x : List ℚ) (h : y.length = x.length) (hpos : 0 < y.length) :
    (cumtrapz y x).length = y.length := by
  cases y with
  | nil => simp at hpos
  | cons y0 ys =>
    cases x with
    | nil => simp at h
    | cons x0 xs =>
      simp only [cumtrapz, List.length_cons, ctGo_length]
      simp only [List.length_cons] at h
      omega

theorem cumtrapz_getD_zero (y x : List ℚ) : (cumtrapz y x).getD 0 0 = 0 := by
  cases y with
  | nil => simp [cumtrapz]
  | cons y0 ys =>
    cases x with
    | nil => simp [cumtrapz]
    | cons x0 xs => simp [cumtrapz]

theorem zipWith_pyDiv_getD (a b : List ℚ) (n : ℕ) (ha : n < a.length) (hb : n < b.length) :
    (List.zipWith pyDiv a b).getD n none = pyDiv (a.getD n 0) (b.getD n 0) := by
  induction a generalizing b n with
  | nil => simp at ha
  | cons a0 as ih =>
    cases b with
    | nil => simp at hb
    | cons b0 bs =>
      cases n with
      | zero => simp
      | succ m =>
        simp only [List.zipWith_cons_cons, List.getD_cons_succ]
        exact ih bs m (by simpa using ha) (by simpa using hb)

/-- C7: running_ave(kappa, time) is the zero-seeded cumulative trapezoidal
integral of kappa over time divided elementwise by time; the division at
index 0 is unguarded, so whenever time[0] = 0 the entry at index 0 is the
division 0/0, a non-finite float (modelled as none). -/
theorem C7_running_ave_division_hazard (kappa time : List ℚ)
    (hlen : kappa.length = time.length) (hpos : 0 < time.length)
    (h0 : time.getD 0 0 = 0) :
    (∀ n < time.length,
      (running_ave kappa time).getD n none =
        pyDiv ((cumtrapz kappa time).getD n 0) (time.getD n 0)) ∧
    (cumtrapz kappa time).getD 0 0 = 0 ∧
    (running_ave kappa time).getD 0 none = none := by
  have hct : (cumtrapz kappa time).length = time.length := by
    rw [cumtrapz_length kappa time hlen (hlen ▸ hpos)]; exact hlen
  have hmain : ∀ n < time.length,
      (running_ave kappa time).getD n none =
        pyDiv ((cumtrapz kappa time).getD n 0) (time.getD n 0) := by
    intro n hn
    unfold running_ave
    exact zipWith_pyDiv_getD _ _ n (by omega) hn
  refine ⟨hmain, cumtrapz_getD_zero kappa time, ?_⟩
  rw [hmain 0 hpos, cumtrapz_getD_zero, h0]
  simp [pyDiv]

theorem C7_running_ave_division_hazard_witness :
    (([(1:ℚ), 2] : List ℚ).length = ([(0:ℚ), 1] : List ℚ).length ∧
      ([(0:ℚ), 1] : List ℚ).getD 0 0 = 0) ∧
    (running_ave [(1:ℚ), 2] [(0:ℚ), 1]).getD 0 none = none :=
  ⟨⟨rfl, by norm_num⟩,
    (C7_running_ave_division_hazard [1, 2] [0, 1] rfl (by norm_num) (by norm_num)).2.2⟩

/-- C4: hnemd_spectral_kappa raises exactly when J_in or J_out is absent
from shc; otherwise it writes k_in = J_in * 1602.17662 / (Fe*T*V) and
k_out = J_out * 1602.17662 / (Fe*T*V) elementwise, with no correlation or
integration involved. -/
theorem C4_hnemd_spectral_kappa_spec (shc : DataDict) (Fe T V : ℚ) :
    ((hnemd_spectral_kappa shc Fe T V).2.isSome ↔
      dlookup shc "J_in" = none ∨ dlookup shc "J_out" = none) ∧
    (∀ jin : List ℚ, dlookup shc "J_in" = some (.a1 jin) →
      ∀ jout : List ℚ, dlookup shc "J_out" = some (.a1 jout) →
        dlookup (hnemd_spectral_kappa shc Fe T V).1 "k_in" =
          some (.a1 (jin.map fun j => j * 1602.17662 / (Fe * T * V))) ∧
        dlookup (hnemd_spectral_kappa shc Fe T V).1 "k_out" =
          some (.a1 (jout.map fun j => j * 1602.17662 / (Fe * T * V)))) := by
  constructor
  · cases hin : dlookup shc "J_in" with
    | none => simp [hnemd_spectral_kappa, hin]
    | some vin =>
      cases hout : dlookup shc "J_out" with
      | none => simp [hnemd_spectral_kappa, hin, hout]
      | some vout => simp [hnemd_spectral_kappa, hin, hout]
  · intro jin hin jout hout
    simp only [hnemd_spectral_kappa, hin, hout]
    constructor
    · rw [dlookup_dinsert_ne _ _ _ _ (by decide), dlookup_dinsert]
      simp [hnemdScale]
    · rw [dlookup_dinsert]
      simp [hnemdScale]

theorem C4_hnemd_spectral_kappa_spec_witness :
    dlookup (hnemd_spectral_kappa [("J_in", Val.a1 [10]), ("J_out", Val.a1 [-10])]
        0.01 300 1000).1 "k_in" = some (.a1 [10 * 1602.17662 / (0.01 * 300 * 1000)]) ∧
    dlookup (hnemd_spectral_kappa [("J_in", Val.a1 [10]), ("J_out", Val.a1 [-10])]
        0.01 300 1000).1 "k_out" = some (.a1 [-(10 * 1602.17662 / (0.01 * 300 * 1000))]) := by
  have h := (C4_hnemd_spectral_kappa_spec [("J_in", Val.a1 [10]), ("J_out", Val.a1 [-10])]
      0.01 300 1000).2 [10] (by simp [dlookup]) [-10] (by simp [dlookup])
  refine ⟨?_, ?_⟩
  · rw [h.1]; norm_num
  · rw [h.2]; norm_num

/-- C9: hnemd_spectral_kappa delivers its results only by mutating shc (the
Python function returns None, embedded as returning just the exit state):
on success the keys k_in and k_out are present, and every key other than
k_in and k_out keeps exactly the value it had in the input mapping, in
particular J_in and J_out are unchanged. -/
theorem C9_hnemd_spectral_kappa_frame (shc : DataDict) (Fe T V : ℚ) (res : DataDict)
    (hok : hnemd_spectral_kappa shc Fe T V = (res, none)) :
    (dlookup res "k_in").isSome ∧ (dlookup res "k_out").isSome ∧
    ∀ k : String, k ≠ "k_in" → k ≠ "k_out" → dlookup res k = dlookup shc k := by
  cases hin : dlookup shc "J_in" with
  | none => simp [hnemd_spectral_kappa, hin] at hok
  | some vin =>
    cases hout : dlookup shc "J_out" with
    | none => simp [hnemd_spectral_kappa, hin, hout] at hok
    | some vout =>
      simp only [hnemd_spectral_kappa, hin, hout, Prod.mk.injEq] at hok
      obtain ⟨hres, -⟩ := hok
      subst hres
      refine ⟨?_, ?_, ?_⟩
      · rw [dlookup_dinsert_ne _ _ _ _ (by decide), dlookup_dinsert]
        simp
      · rw [dlookup_dinsert]
        simp
      · intro k hk1 hk2
        rw [dlookup_dinsert_ne _ _ _ _ hk2, dlookup_dinsert_ne _ _ _ _ hk1]

theorem C9_hnemd_spectral_kappa_frame_witness :
    dlookup (hnemd_spectral_kappa [("J_in", Val.a1 [10]), ("J_out", Val.a1 [-10])]
        0.01 300 1000).1 "J_in" =
      dlookup [("J_in", Val.a1 [10]), ("J_out", Val.a1 [-10])] "J_in" := by
  have h2 : (hnemd_spectral_kappa [("J_in", Val.a1 [10]), ("J_out", Val.a1 [-10])]
      0.01 300 1000).2 = none := by
    simp [hnemd_spectral_kappa, dlookup]
  have hok : hnemd_spectral_kappa [("J_in", Val.a1 [10]), ("J_out", Val.a1 [-10])]
      0.01 300 1000 =
      ((hnemd_spectral_kappa [("J_in", Val.a1 [10]), ("J_out", Val.a1 [-10])]
        0.01 300 1000).1, none) := by
    rw [← h2]
  exact (C9_hnemd_spectral_kappa_frame _ 0.01 300 1000 _ hok).2.2 "J_in" (by decide) (by decide)

theorem ggLoop_of_forall_le (d : ℚ) :
    ∀ (l : List ℚ), (∀ a ∈ l, a ≤ d) → ∀ i : ℕ, ggLoop d i l = -1 := by
  intro l
  induction l with
  | nil => intro _ i; simp [ggLoop]
  | cons v tl ih =>
    intro h i
    cases tl with
    | nil => simp [ggLoop]
    | cons w rest =>
      have hv : v ≤ d := h v (by simp)
      have hw : w ≤ d := h w (by simp)
      have hrec := ih (fun a ha => h a (List.mem_cons_of_mem v ha)) (i + 1)
      simp only [ggLoop]
      rw [if_neg (fun hc => absurd hc.2 (not_lt.mpr hv)),
        if_neg (fun hc => absurd hc.2 (not_lt.mpr hw))]
      exact hrec

theorem mem_of_getLast_some : ∀ (l : List ℚ) (m : ℚ), l.getLast? = some m → m ∈ l := by
  intro l
  induction l with
  | nil => intro m h; simp at h
  | cons v tl ih =>
    intro m h
    cases tl with
    | nil =>
      simp only [List.getLast?_singleton, Option.some.injEq] at h
      simp [h]
    | cons w rest =>
      rw [List.getLast?_cons_cons] at h
      exact List.mem_cons_of_mem v (ih m h)

theorem all_le_of_sorted_getLast (d : ℚ) :
    ∀ (l : List ℚ), List.Sorted (· ≤ ·) l → ∀ m : ℚ, l.getLast? = some m → m ≤ d →
    ∀ a ∈ l, a ≤ d := by
  intro l
  induction l with
  | nil => intro _ m hm; simp at hm
  | cons v tl ih =>
    intro hs m hm hmd a ha
    obtain ⟨hv, hstl⟩ := List.sorted_cons.mp hs
    cases tl with
    | nil =>
      simp only [List.getLast?_singleton, Option.some.injEq] at hm
      have ha2 : a = v := by simpa using ha
      rw [ha2, hm]
      exact hmd
    | cons w rest =>
      rw [List.getLast?_cons_cons] at hm
      rcases List.mem_cons.mp ha with h1 | h2
      · subst h1
        exact le_trans (hv m (mem_of_getLast_some _ m hm)) hmd
      · exact ih hstl m hm hmd a h2

theorem incr_neg_one (counts : List ℤ) (h : counts ≠ []) :
    pyIncr counts (-1) = some (counts.set (counts.length - 1) (counts[counts.length - 1]! + 1)) := by
  have hlen : 0 < counts.length := List.length_pos.mpr h
  have hj : (if (-1 : ℤ) < 0 then -1 + (counts.length : ℤ) else -1) = (counts.length : ℤ) - 1 := by
    rw [if_pos (by norm_num)]; ring
  have ht : ((counts.length : ℤ) - 1).toNat = counts.length - 1 := by omega
  simp only [pyIncr, hj]
  rw [if_pos (by omega), ht]

/-- C10: an atom whose selected coordinate lies below the first boundary of
a sorted split, or at or above the last boundary, gets -1 from __get_group
rather than an error; assign_groups then tags that atom with -1 and
increments the entry counts[-1], the count of the last group, so that
out-of-bounds atoms are silently attributed to the final group. -/
theorem C10_out_of_bounds_atom (split : List ℚ) (pos : ℚ × ℚ × ℚ) (direction : String)
    (hlen : 2 ≤ split.length) (hsorted : List.Sorted (· ≤ ·) split)
    (hout : (∃ v, split.head? = some v ∧ coordOf direction pos < v) ∨
      (∃ v, split.getLast? = some v ∧ v ≤ coordOf direction pos)) :
    __get_group split pos direction = -1 ∧
    (∀ t : ℤ, ∀ rest : List AtomT, ∀ counts : List ℤ, counts ≠ [] →
      assignGo split direction ({ position := pos, tag := t } :: rest) counts =
        (assignGo split direction rest
          (counts.set (counts.length - 1) (counts[counts.length - 1]! + 1))).map
          (fun p => ({ position := pos, tag := -1 } :: p.1, p.2))) ∧
    (∀ t : ℤ, ∀ rest : List AtomT,
      assign_groups split ({ position := pos, tag := t } :: rest) direction =
        (assignGo split direction rest
          ((List.replicate (split.length - 1) (0 : ℤ)).set (split.length - 2) 1)).map
          (fun p => ({ position := pos, tag := -1 } :: p.1, p.2))) := by
  have hgg : __get_group split pos direction = -1 := by
    rcases hout with ⟨v, hh, hlt⟩ | ⟨m, hm, hle⟩
    · match split, hlen with
      | v0 :: w :: rest, _ =>
        simp only [List.head?_cons, Option.some.injEq] at hh
        subst hh
        simp only [__get_group, ggLoop]
        simp [hlt]
    · exact ggLoop_of_forall_le _ split
        (all_le_of_sorted_getLast _ split hsorted m hm hle) 0
  have hstep : ∀ t : ℤ, ∀ rest : List AtomT, ∀ counts : List ℤ, counts ≠ [] →
      assignGo split direction ({ position := pos, tag := t } :: rest) counts =
        (assignGo split direction rest
          (counts.set (counts.length - 1) (counts[counts.length - 1]! + 1))).map
          (fun p => ({ position := pos, tag := -1 } :: p.1, p.2)) := by
    intro t rest counts hne
    simp only [assignGo, hgg, incr_neg_one counts hne]
    cases assignGo split direction rest
        (counts.set (counts.length - 1) (counts[counts.length - 1]! + 1)) with
    | none => simp
    | some p => obtain ⟨ats, cs⟩ := p; simp
  refine ⟨hgg, hstep, ?_⟩
  intro t rest
  have hne : (List.replicate (split.length - 1) (0 : ℤ)) ≠ [] := by
    intro hcon
    have hc2 := congrArg List.length hcon
    simp at hc2
    omega
  have h1 : (List.replicate (split.length - 1) (0 : ℤ)).length = split.length - 1 := by simp
  have harg : (List.replicate (split.length - 1) (0 : ℤ)).set
      ((List.replicate (split.length - 1) (0 : ℤ)).length - 1)
      ((List.replicate (split.length - 1) (0 : ℤ))[(List.replicate (split.length - 1) (0 : ℤ)).length - 1]! + 1) =
      (List.replicate (split.length - 1) (0 : ℤ)).set (split.length - 2) 1 := by
    rw [h1]
    have hb : split.length - 1 - 1 < split.length - 1 := by omega
    have h2 : (List.replicate (split.length - 1) (0 : ℤ))[split.length - 1 - 1]! = 0 := by
      rw [getElem!_pos _ _ (by simpa using hb)]
      simp
    have hidx : split.length - 1 - 1 = split.length - 2 := by omega
    rw [h2, hidx]
    norm_num
  simp only [assign_groups]
  rw [hstep t rest _ hne, harg]

theorem C10_out_of_bounds_atom_witness :
    __get_group [0, 1, 2] (5, 0, 0) "x" = -1 ∧
    assign_groups [0, 1, 2] [{ position := (5, 0, 0), tag := 7 }] "x" =
      (assignGo [0, 1, 2] "x" []
        ((List.replicate (([0, 1, 2] : List ℚ).length - 1) (0 : ℤ)).set
          (([0, 1, 2] : List ℚ).length - 2) 1)).map
        (fun p => ({ position := ((5 : ℚ), (0 : ℚ), (0 : ℚ)), tag := -1 } :: p.1, p.2)) := by
  have h := C10_out_of_bounds_atom [0, 1, 2] (5, 0, 0) "x" (by norm_num)
    (by norm_num [List.sorted_cons])
    (Or.inr ⟨2, by rfl, by norm_num [coordOf]⟩)
  exact ⟨h.1, h.2.2 7 []⟩

theorem chain_snd_none {r : DataDict × Option Err} {f : DataDict → DataDict × Option Err}
    (h : r.2 = none) : chain r f = f r.1 := by
  obtain ⟨st, e⟩ := r
  cases e with
  | none => rfl
  | some e2 => simp at h

theorem chain_snd_some {r : DataDict × Option Err} {f : DataDict → DataDict × Option Err}
    {e : Err} (h : r.2 = some e) : chain r f = r := by
  obtain ⟨st, e1⟩ := r
  cases e1 with
  | none => simp at h
  | some e2 => rfl

theorem chain_none_split {r : DataDict × Option Err} {f : DataDict → DataDict × Option Err}
    (h : (chain r f).2 = none) : r.2 = none ∧ chain r f = f r.1 ∧ (f r.1).2 = none := by
  obtain ⟨st, e⟩ := r
  cases e with
  | none => exact ⟨rfl, rfl, by simpa [chain] using h⟩
  | some e2 => simp [chain] at h

theorem dlookup_setRow_ne (st : DataDict) (k q : String) (m : ℕ) (v : List ℚ) (h : q ≠ k) :
    dlookup (setRow st k m v) q = dlookup st q := by
  unfold setRow
  cases hl : dlookup st k with
  | none => rfl
  | some val =>
    cases val with
    | a1 l => rfl
    | a2 rows => exact dlookup_dset_ne st k q _ h

theorem dlookup_setRow_self (st : DataDict) (k : String) (m : ℕ) (v : List ℚ)
    (rows : List (List ℚ)) (h : dlookup st k = some (.a2 rows)) :
    dlookup (setRow st k m v) k = some (.a2 (rows.set m v)) := by
  unfold setRow
  rw [h]
  exact dlookup_dset_self st k _ (by simp [h])

/-- Predicate of C2: every row of the 2-D array stored under key k starts
with the value 0 (reading index 0 with default 0). -/
def headZeroKey (d : DataDict) (k : String) : Prop :=
  ∀ rows : List (List ℚ), dlookup d k = some (.a2 rows) →
    ∀ row ∈ rows, row.getD 0 0 = 0

theorem headZeroKey_of_lookup_eq {st1 st2 : DataDict} {k : String}
    (h : dlookup st2 k = dlookup st1 k) (hz : headZeroKey st1 k) : headZeroKey st2 k := by
  intro rows hr
  exact hz rows (h ▸ hr)

theorem headZeroKey_dinsert_zeros (d : DataDict) (k : String) (m n : ℕ) :
    headZeroKey (dinsert d k (.a2 (zeros2 m n))) k := by
  intro rows hr row hrow
  rw [dlookup_dinsert, if_pos rfl] at hr
  obtain ⟨rfl⟩ : zeros2 m n = rows := by
    have := hr
    simp only [Option.some.injEq, Val.a2.injEq] at this
    exact this
  have : row = zerosRow n := List.eq_of_mem_replicate hrow
  subst this
  cases n <;> simp [zerosRow]

theorem headZeroKey_setRow_self (st : DataDict) (k : String) (m : ℕ) (v : List ℚ)
    (hz : headZeroKey st k) (hv : v.getD 0 0 = 0) : headZeroKey (setRow st k m v) k := by
  intro rows2 hr2 row hrow
  unfold setRow at hr2
  cases hl : dlookup st k with
  | none => rw [hl] at hr2; exact hz rows2 (hl ▸ hr2) row hrow
  | some val =>
    cases val with
    | a1 l => rw [hl] at hr2; exact hz rows2 (hl ▸ hr2) row hrow
    | a2 rows =>
      rw [hl] at hr2
      rw [dlookup_dset_self st k _ (by simp [hl])] at hr2
      simp only [Option.some.injEq, Val.a2.injEq] at hr2
      subst hr2
      rcases List.mem_or_eq_of_mem_set hrow with h1 | h2
      · exact hz rows hl row h1
      · rw [h2]; exact hv

theorem cumtrapz_scaled_getD (y x : List ℚ) (s : ℚ) :
    ((cumtrapz y x).map (· * s)).getD 0 0 = 0 := by
  cases y with
  | nil => simp [cumtrapz]
  | cons y0 ys =>
    cases x with
    | nil => simp [cumtrapz]
    | cons x0 xs => simp [cumtrapz]


theorem loop2_frame (xi xo : List (List ℚ)) (jref tau : List ℚ) (maxLag : ℤ) (scale : ℚ)
    (kci kki kco kko q : String) (h1 : q ≠ kci) (h2 : q ≠ kki) (h3 : q ≠ kco) (h4 : q ≠ kko) :
    ∀ (ms : List ℕ) (st : DataDict),
      dlookup (loop2 xi xo jref tau maxLag scale kci kki kco kko ms st).1 q = dlookup st q := by
  intro ms
  induction ms with
  | nil => intro st; rfl
  | cons m tl ih =>
    intro st
    simp only [loop2]
    cases hg1 : getRow xi m with
    | error e => rfl
    | ok rowi =>
      dsimp only
      cases hc1 : corr rowi jref maxLag with
      | error e => rfl
      | ok c1 =>
        dsimp only
        cases hg2 : getRow xo m with
        | error e =>
          dsimp only
          rw [dlookup_setRow_ne _ _ _ _ _ h2, dlookup_setRow_ne _ _ _ _ _ h1]
        | ok rowo =>
          dsimp only
          cases hc2 : corr rowo jref maxLag with
          | error e =>
            dsimp only
            rw [dlookup_setRow_ne _ _ _ _ _ h2, dlookup_setRow_ne _ _ _ _ _ h1]
          | ok c2 =>
            dsimp only
            rw [ih, dlookup_setRow_ne _ _ _ _ _ h4, dlookup_setRow_ne _ _ _ _ _ h3,
              dlookup_setRow_ne _ _ _ _ _ h2, dlookup_setRow_ne _ _ _ _ _ h1]

theorem loop1_frame (xi : List (List ℚ)) (jref tau : List ℚ) (maxLag : ℤ) (scale : ℚ)
    (kc kk q : String) (h1 : q ≠ kc) (h2 : q ≠ kk) :
    ∀ (ms : List ℕ) (st : DataDict),
      dlookup (loop1 xi jref tau maxLag scale kc kk ms st).1 q = dlookup st q := by
  intro ms
  induction ms with
  | nil => intro st; rfl
  | cons m tl ih =>
    intro st
    simp only [loop1]
    cases hg1 : getRow xi m with
    | error e => rfl
    | ok rowi =>
      dsimp only
      cases hc1 : corr rowi jref maxLag with
      | error e => rfl
      | ok c1 =>
        dsimp only
        rw [ih, dlookup_setRow_ne _ _ _ _ _ h2, dlookup_setRow_ne _ _ _ _ _ h1]

theorem loop2_headZero (xi xo : List (List ℚ)) (jref tau : List ℚ) (maxLag : ℤ) (scale : ℚ)
    (kci kki kco kko : String)
    (hki_ci : kki ≠ kci) (hki_co : kki ≠ kco) (hki_ko : kki ≠ kko)
    (hko_ci : kko ≠ kci) (hko_co : kko ≠ kco) :
    ∀ (ms : List ℕ) (st : DataDict), headZeroKey st kki → headZeroKey st kko →
      headZeroKey (loop2 xi xo jref tau maxLag scale kci kki kco kko ms st).1 kki ∧
      headZeroKey (loop2 xi xo jref tau maxLag scale kci kki kco kko ms st).1 kko := by
  intro ms
  induction ms with
  | nil => intro st hki hko; exact ⟨hki, hko⟩
  | cons m tl ih =>
    intro st hki hko
    simp only [loop2]
    cases hg1 : getRow xi m with
    | error e => exact ⟨hki, hko⟩
    | ok rowi =>
      dsimp only
      cases hc1 : corr rowi jref maxLag with
      | error e => exact ⟨hki, hko⟩
      | ok c1 =>
        dsimp only
        have hki1 : headZeroKey (setRow st kci m c1) kki :=
          headZeroKey_of_lookup_eq (dlookup_setRow_ne _ _ _ _ _ hki_ci) hki
        have hko1 : headZeroKey (setRow st kci m c1) kko :=
          headZeroKey_of_lookup_eq (dlookup_setRow_ne _ _ _ _ _ hko_ci) hko
        have hki2 : headZeroKey (setRow (setRow st kci m c1) kki m
            ((cumtrapz c1 tau).map (· * scale))) kki :=
          headZeroKey_setRow_self _ _ _ _ hki1 (cumtrapz_scaled_getD c1 tau scale)
        have hko2 : headZeroKey (setRow (setRow st kci m c1) kki m
            ((cumtrapz c1 tau).map (· * scale))) kko :=
          headZeroKey_of_lookup_eq (dlookup_setRow_ne _ _ _ _ _ (fun h => hki_ko h.symm)) hko1
        cases hg2 : getRow xo m with
        | error e => exact ⟨hki2, hko2⟩
        | ok rowo =>
          dsimp only
          cases hc2 : corr rowo jref maxLag with
          | error e => exact ⟨hki2, hko2⟩
          | ok c2 =>
            dsimp only
            have hki3 : headZeroKey (setRow (setRow (setRow st kci m c1) kki m
                ((cumtrapz c1 tau).map (· * scale))) kco m c2) kki :=
              headZeroKey_of_lookup_eq (dlookup_setRow_ne _ _ _ _ _ hki_co) hki2
            have hko3 : headZeroKey (setRow (setRow (setRow st kci m c1) kki m
                ((cumtrapz c1 tau).map (· * scale))) kco m c2) kko :=
              headZeroKey_of_lookup_eq (dlookup_setRow_ne _ _ _ _ _ hko_co) hko2
            have hki4 : headZeroKey (setRow (setRow (setRow (setRow st kci m c1) kki m
                ((cumtrapz c1 tau).map (· * scale))) kco m c2) kko m
                ((cumtrapz c2 tau).map (· * scale))) kki :=
              headZeroKey_of_lookup_eq (dlookup_setRow_ne _ _ _ _ _ hki_ko) hki3
            have hko4 : headZeroKey (setRow (setRow (setRow (setRow st kci m c1) kki m
                ((cumtrapz c1 tau).map (· * scale))) kco m c2) kko m
                ((cumtrapz c2 tau).map (· * scale))) kko :=
              headZeroKey_setRow_self _ _ _ _ hko3 (cumtrapz_scaled_getD c2 tau scale)
            exact ih _ hki4 hko4

theorem loop1_headZero (xi : List (List ℚ)) (jref tau : List ℚ) (maxLag : ℤ) (scale : ℚ)
    (kc kk : String) (hkc : kk ≠ kc) :
    ∀ (ms : List ℕ) (st : DataDict), headZeroKey st kk →
      headZeroKey (loop1 xi jref tau maxLag scale kc kk ms st).1 kk := by
  intro ms
  induction ms with
  | nil => intro st hk; exact hk
  | cons m tl ih =>
    intro st hk
    simp only [loop1]
    cases hg1 : getRow xi m with
    | error e => exact hk
    | ok rowi =>
      dsimp only
      cases hc1 : corr rowi jref maxLag with
      | error e => exact hk
      | ok c1 =>
        dsimp only
        have hk1 : headZeroKey (setRow st kc m c1) kk :=
          headZeroKey_of_lookup_eq (dlookup_setRow_ne _ _ _ _ _ hkc) hk
        have hk2 : headZeroKey (setRow (setRow st kc m c1) kk m
            ((cumtrapz c1 tau).map (· * scale))) kk :=
          headZeroKey_setRow_self _ _ _ _ hk1 (cumtrapz_scaled_getD c1 tau scale)
        exact ih _ hk2

theorem block2_missing (st : DataDict) (kin kout kci kco kki kko errmsg : String)
    (nbins size : ℕ) (tau : List ℚ) (maxLag : ℤ) (scale : ℚ)
    (hp : (dlookup st kin).isSome = false ∨ (dlookup st kout).isSome = false) :
    block2 st kin kout kci kco kki kko errmsg nbins size tau maxLag scale =
      (st, some (.valueError errmsg)) := by
  unfold block2
  rw [if_pos hp]

theorem block1_missing (st : DataDict) (kin kc kk errmsg : String)
    (nbins size : ℕ) (tau : List ℚ) (maxLag : ℤ) (scale : ℚ)
    (hp : (dlookup st kin).isSome = false) :
    block1 st kin kc kk errmsg nbins size tau maxLag scale =
      (st, some (.valueError errmsg)) := by
  unfold block1
  rw [if_pos hp]

theorem block2_frame (st : DataDict) (kin kout kci kco kki kko errmsg : String)
    (nbins size : ℕ) (tau : List ℚ) (maxLag : ℤ) (scale : ℚ) (q : String)
    (h1 : q ≠ kci) (h2 : q ≠ kco) (h3 : q ≠ kki) (h4 : q ≠ kko) :
    dlookup (block2 st kin kout kci kco kki kko errmsg nbins size tau maxLag scale).1 q =
      dlookup st q := by
  unfold block2
  by_cases hp : (dlookup st kin).isSome = false ∨ (dlookup st kout).isSome = false
  · rw [if_pos hp]
  · rw [if_neg hp]
    cases ha1 : getArr2 st kin with
    | error e => rfl
    | ok xi =>
      dsimp only
      cases ha2 : getArr2 st kout with
      | error e => rfl
      | ok xo =>
        dsimp only
        rw [loop2_frame _ _ _ _ _ _ _ _ _ _ _ h1 h3 h2 h4,
          dlookup_dinsert_ne _ _ _ _ h4, dlookup_dinsert_ne _ _ _ _ h3,
          dlookup_dinsert_ne _ _ _ _ h2, dlookup_dinsert_ne _ _ _ _ h1]

theorem block1_frame (st : DataDict) (kin kc kk errmsg : String)
    (nbins size : ℕ) (tau : List ℚ) (maxLag : ℤ) (scale : ℚ) (q : String)
    (h1 : q ≠ kc) (h2 : q ≠ kk) :
    dlookup (block1 st kin kc kk errmsg nbins size tau maxLag scale).1 q = dlookup st q := by
  unfold block1
  by_cases hp : (dlookup st kin).isSome = false
  · rw [if_pos hp]
  · rw [if_neg hp]
    cases ha1 : getArr2 st kin with
    | error e => rfl
    | ok xi =>
      dsimp only
      rw [loop1_frame _ _ _ _ _ _ _ _ h1 h2,
        dlookup_dinsert_ne _ _ _ _ h2, dlookup_dinsert_ne _ _ _ _ h1]

theorem block2_headZero (st : DataDict) (kin kout kci kco kki kko errmsg : String)
    (nbins size : ℕ) (tau : List ℚ) (maxLag : ℤ) (scale : ℚ)
    (hki_ci : kki ≠ kci) (hki_co : kki ≠ kco) (hki_ko : kki ≠ kko)
    (hko_ci : kko ≠ kci) (hko_co : kko ≠ kco)
    (hok : (block2 st kin kout kci kco kki kko errmsg nbins size tau maxLag scale).2 = none) :
    headZeroKey (block2 st kin kout kci kco kki kko errmsg nbins size tau maxLag scale).1 kki ∧
    headZeroKey (block2 st kin kout kci kco kki kko errmsg nbins size tau maxLag scale).1 kko := by
  unfold block2 at hok ⊢
  by_cases hp : (dlookup st kin).isSome = false ∨ (dlookup st kout).isSome = false
  · rw [if_pos hp] at hok
    simp at hok
  · rw [if_neg hp] at hok ⊢
    cases ha1 : getArr2 st kin with
    | error e => rw [ha1] at hok; simp at hok
    | ok xi =>
      rw [ha1] at hok
      dsimp only at hok ⊢
      cases ha2 : getArr2 st kout with
      | error e => rw [ha2] at hok; simp at hok
      | ok xo =>
        rw [ha2] at hok
        dsimp only at hok ⊢
        have hki0 : headZeroKey (dinsert (dinsert (dinsert (dinsert st kci
            (.a2 (zeros2 nbins size))) kco (.a2 (zeros2 nbins size))) kki
            (.a2 (zeros2 nbins size))) kko (.a2 (zeros2 nbins size))) kki :=
          headZeroKey_of_lookup_eq (dlookup_dinsert_ne _ _ _ _ hki_ko)
            (headZeroKey_dinsert_zeros _ _ _ _)
        have hko0 : headZeroKey (dinsert (dinsert (dinsert (dinsert st kci
            (.a2 (zeros2 nbins size))) kco (.a2 (zeros2 nbins size))) kki
            (.a2 (zeros2 nbins size))) kko (.a2 (zeros2 nbins size))) kko :=
          headZeroKey_dinsert_zeros _ _ _ _
        exact loop2_headZero _ _ _ _ _ _ _ _ _ _ hki_ci hki_co hki_ko hko_ci hko_co _ _ hki0 hko0

theorem block1_headZero (st : DataDict) (kin kc kk errmsg : String)
    (nbins size : ℕ) (tau : List ℚ) (maxLag : ℤ) (scale : ℚ) (hkc : kk ≠ kc)
    (hok : (block1 st kin kc kk errmsg nbins size tau maxLag scale).2 = none) :
    headZeroKey (block1 st kin kc kk errmsg nbins size tau maxLag scale).1 kk := by
  unfold block1 at hok ⊢
  by_cases hp : (dlookup st kin).isSome = false
  · rw [if_pos hp] at hok
    simp at hok
  · rw [if_neg hp] at hok ⊢
    cases ha1 : getArr2 st kin with
    | error e => rw [ha1] at hok; simp at hok
    | ok xi =>
      rw [ha1] at hok
      dsimp only at hok ⊢
      exact loop1_headZero _ _ _ _ _ _ _ hkc _ _ (headZeroKey_dinsert_zeros _ _ _ _)

theorem dlookup_rescaleTau_ne (st : DataDict) (q : String) (h : q ≠ "tau") :
    dlookup (rescaleTau st) q = dlookup st q := by
  unfold rescaleTau
  cases hl : dlookup st "tau" with
  | none => rfl
  | some v =>
    cases v with
    | a1 l => exact dlookup_dinsert_ne _ _ _ _ h
    | a2 r => rfl

theorem dlookup_rescaleTau_tau (st : DataDict) (l : List ℚ)
    (h : dlookup st "tau" = some (.a1 l)) :
    dlookup (rescaleTau st) "tau" = some (.a1 (l.map (· / 1e6))) := by
  unfold rescaleTau
  rw [h]
  rw [dlookup_dinsert, if_pos rfl]

/-- Resolved maximum correlation time in femtoseconds (lines 102 to 105 of
calc.py): the total available time when max_tau is absent, else max_tau
(nanoseconds) times 1e6. -/
def gkMt (nsamples : ℕ) (dt : ℚ) (si : ℕ) (max_tau : Option ℚ) : ℚ :=
  match max_tau with
  | none => (si : ℚ) * dt * ((nsamples : ℚ) - 1)
  | some v => v * 1e6

/-- Maximum lag index (line 107 of calc.py): floor of the resolved maximum
correlation time over the sampling time. -/
def gkMaxLag (nsamples : ℕ) (dt : ℚ) (si : ℕ) (max_tau : Option ℚ) : ℤ :=
  ⌊gkMt nsamples dt si max_tau / ((si : ℚ) * dt)⌋

/-- Lag axis in femtoseconds as np.linspace produces it at line 109 of
calc.py (the ok branch of pyLinspace at the arguments the engine passes). -/
def gkTauFs (nsamples : ℕ) (dt : ℚ) (si : ℕ) (max_tau : Option ℚ) : List ℚ :=
  (List.range (gkMaxLag nsamples dt si max_tau + 1).toNat).map fun k =>
    0 + (k : ℚ) * (((gkMaxLag nsamples dt si max_tau : ℚ) * ((si : ℚ) * dt) - 0) /
      (((gkMaxLag nsamples dt si max_tau + 1 : ℤ) : ℚ) - 1))

theorem get_gkma_kappa_run (data : DataDict) (nbins nsamples : ℕ) (dt : ℚ) (si : ℕ)
    (T vol : ℚ) (max_tau : Option ℚ) (directions : String)
    (hTv : ¬ (T * T * vol = 0)) (hsr : ¬ ((si : ℚ) * dt = 0))
    (hsize : ¬ (gkMaxLag nsamples dt si max_tau + 1 < 0)) :
    get_gkma_kappa data nbins nsamples dt si T vol max_tau directions =
      chain (chain (chain
        (if 'x' ∈ get_direction directions then
          block2 (dinsert data "tau" (.a1 (gkTauFs nsamples dt si max_tau)))
            "jmxi" "jmxo" "corr_xmi_x" "corr_xmo_x" "kmxi" "kmxo"
            "x direction data is missing" nbins (gkMaxLag nsamples dt si max_tau + 1).toNat
            (gkTauFs nsamples dt si max_tau) (gkMaxLag nsamples dt si max_tau)
            (__scale_gpumd_tc vol T)
        else (dinsert data "tau" (.a1 (gkTauFs nsamples dt si max_tau)), none))
        (fun st => if 'y' ∈ get_direction directions then
          block2 st "jmyi" "jmyo" "corr_ymi_y" "corr_ymo_y" "kmyi" "kmyo"
            "y direction data is missing" nbins (gkMaxLag nsamples dt si max_tau + 1).toNat
            (gkTauFs nsamples dt si max_tau) (gkMaxLag nsamples dt si max_tau)
            (__scale_gpumd_tc vol T)
        else (st, none)))
        (fun st => if 'z' ∈ get_direction directions then
          block1 st "jmz" "corr_zm_z" "kmz"
            "z direction data is missing" nbins (gkMaxLag nsamples dt si max_tau + 1).toNat
            (gkTauFs nsamples dt si max_tau) (gkMaxLag nsamples dt si max_tau)
            (__scale_gpumd_tc vol T)
        else (st, none)))
        (fun st => (rescaleTau st, none)) := by
  cases max_tau with
  | none =>
    simp only [gkMaxLag, gkMt] at hsize
    simp only [get_gkma_kappa, gkMaxLag, gkMt, gkTauFs, pyLinspace, hTv, hsr, hsize,
      if_false, ite_false]
  | some v =>
    simp only [gkMaxLag, gkMt] at hsize
    simp only [get_gkma_kappa, gkMaxLag, gkMt, gkTauFs, pyLinspace, hTv, hsr, hsize,
      if_false, ite_false]

theorem gkTauFs_eq (nsamples : ℕ) (dt : ℚ) (si : ℕ) (max_tau : Option ℚ) :
    gkTauFs nsamples dt si max_tau =
      (List.range (gkMaxLag nsamples dt si max_tau + 1).toNat).map
        fun k => (k : ℚ) * ((si : ℚ) * dt) := by
  unfold gkTauFs
  apply List.map_congr_left
  intro k hk
  by_cases hml : gkMaxLag nsamples dt si max_tau = 0
  · rw [hml] at hk ⊢
    simp at hk
    subst hk
    simp
  · by_cases hpos : 0 ≤ gkMaxLag nsamples dt si max_tau + 1
    · have hcast : (((gkMaxLag nsamples dt si max_tau + 1 : ℤ) : ℚ) - 1) =
          ((gkMaxLag nsamples dt si max_tau : ℤ) : ℚ) := by
        push_cast
        ring
      have hmlQ : ((gkMaxLag nsamples dt si max_tau : ℤ) : ℚ) ≠ 0 := Int.cast_ne_zero.mpr hml
      rw [hcast, sub_zero, zero_add, mul_div_cancel_left₀ _ hmlQ]
    · have : (gkMaxLag nsamples dt si max_tau + 1).toNat = 0 := by omega
      rw [this] at hk
      simp at hk

theorem ifblock2_frame (c : Prop) [Decidable c] (st : DataDict)
    (kin kout kci kco kki kko errmsg : String)
    (nbins size : ℕ) (tau : List ℚ) (maxLag : ℤ) (scale : ℚ) (q : String)
    (h1 : q ≠ kci) (h2 : q ≠ kco) (h3 : q ≠ kki) (h4 : q ≠ kko) :
    dlookup ((if c then block2 st kin kout kci kco kki kko errmsg nbins size tau maxLag scale
      else (st, none)).1) q = dlookup st q := by
  by_cases hc : c
  · rw [if_pos hc]
    exact block2_frame st kin kout kci kco kki kko errmsg nbins size tau maxLag scale q h1 h2 h3 h4
  · rw [if_neg hc]

theorem ifblock1_frame (c : Prop) [Decidable c] (st : DataDict)
    (kin kc kk errmsg : String)
    (nbins size : ℕ) (tau : List ℚ) (maxLag : ℤ) (scale : ℚ) (q : String)
    (h1 : q ≠ kc) (h2 : q ≠ kk) :
    dlookup ((if c then block1 st kin kc kk errmsg nbins size tau maxLag scale
      else (st, none)).1) q = dlookup st q := by
  by_cases hc : c
  · rw [if_pos hc]
    exact block1_frame st kin kc kk errmsg nbins size tau maxLag scale q h1 h2
  · rw [if_neg hc]


theorem get_gkma_kappa_neg_size (data : DataDict) (nbins nsamples : ℕ) (dt : ℚ) (si : ℕ)
    (T vol : ℚ) (max_tau : Option ℚ) (directions : String)
    (hTv : ¬ (T * T * vol = 0)) (hsr : ¬ ((si : ℚ) * dt = 0))
    (hsize : gkMaxLag nsamples dt si max_tau + 1 < 0) :
    get_gkma_kappa data nbins nsamples dt si T vol max_tau directions =
      (data, some (.valueError "Number of samples must be non-negative")) := by
  cases max_tau with
  | none =>
    simp only [gkMaxLag, gkMt] at hsize
    simp only [get_gkma_kappa, pyLinspace, hTv, hsr, hsize, if_false, ite_false, if_true, ite_true]
  | some v =>
    simp only [gkMaxLag, gkMt] at hsize
    simp only [get_gkma_kappa, pyLinspace, hTv, hsr, hsize, if_false, ite_false, if_true, ite_true]

theorem dlookup_rescaleTau_tau_eq (st : DataDict) :
    dlookup (rescaleTau st) "tau" =
      match dlookup st "tau" with
      | some (.a1 l) => some (.a1 (l.map (· / 1e6)))
      | other => other := by
  unfold rescaleTau
  cases hl : dlookup st "tau" with
  | none => dsimp only; exact hl
  | some v =>
    cases v with
    | a1 l =>
      dsimp only
      rw [dlookup_dinsert, if_pos rfl]
    | a2 r => dsimp only; exact hl

/-- C1: whenever get_gkma_kappa completes, the tau entry of the dataset has
length max_lag + 1 with max_lag the floor of the resolved maximum
correlation time (total available time sample_interval*dt*(nsamples-1) when
max_tau is absent, max_tau*1e6 femtoseconds otherwise) over
sample_interval*dt, and after the final in-place rescale to nanoseconds the
returned entry k is k*sample_interval*dt/1e6. -/
theorem C1_tau_axis (data : DataDict) (nbins nsamples : ℕ) (dt : ℚ) (sample_interval : ℕ)
    (T vol : ℚ) (max_tau : Option ℚ) (directions : String)
    (hok : (get_gkma_kappa data nbins nsamples dt sample_interval T vol max_tau directions).2 = none) :
    dlookup (get_gkma_kappa data nbins nsamples dt sample_interval T vol max_tau directions).1 "tau" =
      some (.a1 ((List.range (gkMaxLag nsamples dt sample_interval max_tau + 1).toNat).map
        fun k => (k : ℚ) * ((sample_interval : ℚ) * dt) / 1e6)) ∧
    ((gkMaxLag nsamples dt sample_interval max_tau + 1).toNat : ℤ) =
      gkMaxLag nsamples dt sample_interval max_tau + 1 := by
  have hTv : ¬ (T * T * vol = 0) := by
    intro h
    simp [get_gkma_kappa, h] at hok
  have hsr : ¬ ((sample_interval : ℚ) * dt = 0) := by
    intro h
    simp [get_gkma_kappa, hTv, h] at hok
  have hsize : ¬ (gkMaxLag nsamples dt sample_interval max_tau + 1 < 0) := by
    intro h
    rw [get_gkma_kappa_neg_size data nbins nsamples dt sample_interval T vol max_tau directions
      hTv hsr h] at hok
    simp at hok
  rw [get_gkma_kappa_run data nbins nsamples dt sample_interval T vol max_tau directions
    hTv hsr hsize] at hok ⊢
  have s3 := chain_none_split hok
  have s2 := chain_none_split s3.1
  have s1 := chain_none_split s2.1
  rw [s3.2.1, s2.2.1, s1.2.1]
  dsimp only
  refine ⟨?_, by omega⟩
  rw [dlookup_rescaleTau_tau_eq,
    ifblock1_frame _ _ _ _ _ _ _ _ _ _ _ _ (by decide) (by decide),
    ifblock2_frame _ _ _ _ _ _ _ _ _ _ _ _ _ _ _ (by decide) (by decide) (by decide) (by decide),
    ifblock2_frame _ _ _ _ _ _ _ _ _ _ _ _ _ _ _ (by decide) (by decide) (by decide) (by decide),
    dlookup_dinsert, if_pos rfl]
  dsimp only
  rw [gkTauFs_eq, List.map_map]
  rfl

theorem C1_tau_axis_witness :
    dlookup (get_gkma_kappa [] 0 3 1 1 300 1 none "").1 "tau" =
      some (.a1 ((List.range (gkMaxLag 3 1 1 none + 1).toNat).map
        fun k => (k : ℚ) * (((1 : ℕ) : ℚ) * 1) / 1e6)) ∧
    ((gkMaxLag 3 1 1 none + 1).toNat : ℤ) = gkMaxLag 3 1 1 none + 1 :=
  C1_tau_axis [] 0 3 1 1 300 1 none "" (by
    have hx : ¬ ('x' ∈ get_direction "") := by decide
    have hy : ¬ ('y' ∈ get_direction "") := by decide
    have hz : ¬ ('z' ∈ get_direction "") := by decide
    norm_num [get_gkma_kappa, pyLinspace, chain, rescaleTau, dinsert, dlookup, dset, hx, hy, hz])

/-- C2: on any completed call of get_gkma_kappa, for every processed
direction the accumulated-conductivity arrays written into the dataset
(kmxi and kmxo for x, kmyi and kmyo for y, kmz for z) hold exactly 0 at lag
index 0 in every mode bin, regardless of the input heat-current values,
because the cumulative trapezoidal integration is zero-seeded. -/
theorem C2_zero_seeded (data : DataDict) (nbins nsamples : ℕ) (dt : ℚ) (sample_interval : ℕ)
    (T vol : ℚ) (max_tau : Option ℚ) (directions : String)
    (hok : (get_gkma_kappa data nbins nsamples dt sample_interval T vol max_tau directions).2 = none) :
    ('x' ∈ get_direction directions →
      headZeroKey (get_gkma_kappa data nbins nsamples dt sample_interval T vol max_tau directions).1 "kmxi" ∧
      headZeroKey (get_gkma_kappa data nbins nsamples dt sample_interval T vol max_tau directions).1 "kmxo") ∧
    ('y' ∈ get_direction directions →
      headZeroKey (get_gkma_kappa data nbins nsamples dt sample_interval T vol max_tau directions).1 "kmyi" ∧
      headZeroKey (get_gkma_kappa data nbins nsamples dt sample_interval T vol max_tau directions).1 "kmyo") ∧
    ('z' ∈ get_direction directions →
      headZeroKey (get_gkma_kappa data nbins nsamples dt sample_interval T vol max_tau directions).1 "kmz") := by
  have hTv : ¬ (T * T * vol = 0) := by
    intro h
    simp [get_gkma_kappa, h] at hok
  have hsr : ¬ ((sample_interval : ℚ) * dt = 0) := by
    intro h
    simp [get_gkma_kappa, hTv, h] at hok
  have hsize : ¬ (gkMaxLag nsamples dt sample_interval max_tau + 1 < 0) := by
    intro h
    rw [get_gkma_kappa_neg_size data nbins nsamples dt sample_interval T vol max_tau directions
      hTv hsr h] at hok
    simp at hok
  rw [get_gkma_kappa_run data nbins nsamples dt sample_interval T vol max_tau directions
    hTv hsr hsize] at hok ⊢
  have s3 := chain_none_split hok
  have s2 := chain_none_split s3.1
  have s1 := chain_none_split s2.1
  have he3 := s2.2.2
  rw [s1.2.1] at he3
  rw [s3.2.1, s2.2.1, s1.2.1]
  dsimp only
  refine ⟨?_, ?_, ?_⟩
  · intro hxm
    have he := s1.1
    rw [if_pos hxm] at he
    have hb := block2_headZero _ _ _ _ _ _ _ _ _ _ _ _ _
      (by decide) (by decide) (by decide) (by decide) (by decide) he
    rw [if_pos hxm]
    constructor
    · refine headZeroKey_of_lookup_eq ?_ hb.1
      rw [dlookup_rescaleTau_ne _ _ (by decide),
        ifblock1_frame _ _ _ _ _ _ _ _ _ _ _ _ (by decide) (by decide),
        ifblock2_frame _ _ _ _ _ _ _ _ _ _ _ _ _ _ _ (by decide) (by decide) (by decide) (by decide)]
    · refine headZeroKey_of_lookup_eq ?_ hb.2
      rw [dlookup_rescaleTau_ne _ _ (by decide),
        ifblock1_frame _ _ _ _ _ _ _ _ _ _ _ _ (by decide) (by decide),
        ifblock2_frame _ _ _ _ _ _ _ _ _ _ _ _ _ _ _ (by decide) (by decide) (by decide) (by decide)]
  · intro hym
    have he2 := s1.2.2
    rw [if_pos hym] at he2
    have hb := block2_headZero _ _ _ _ _ _ _ _ _ _ _ _ _
      (by decide) (by decide) (by decide) (by decide) (by decide) he2
    rw [if_pos hym]
    constructor
    · refine headZeroKey_of_lookup_eq ?_ hb.1
      rw [dlookup_rescaleTau_ne _ _ (by decide),
        ifblock1_frame _ _ _ _ _ _ _ _ _ _ _ _ (by decide) (by decide)]
    · refine headZeroKey_of_lookup_eq ?_ hb.2
      rw [dlookup_rescaleTau_ne _ _ (by decide),
        ifblock1_frame _ _ _ _ _ _ _ _ _ _ _ _ (by decide) (by decide)]
  · intro hzm
    rw [if_pos hzm] at he3
    have hb := block1_headZero _ _ _ _ _ _ _ _ _ _ (by decide) he3
    rw [if_pos hzm]
    exact headZeroKey_of_lookup_eq (dlookup_rescaleTau_ne _ _ (by decide)) hb

theorem getBang_cons_zero (a : ℚ) (l : List ℚ) : (a :: l)[0]! = a := by
  rw [getElem!_pos] <;> simp

theorem getRow_zero (r : List ℚ) (rest : List (List ℚ)) : getRow (r :: rest) 0 = .ok r := by
  unfold getRow
  rw [dif_pos (by simp)]
  rfl

theorem C2_zero_seeded_witness :
    (get_gkma_kappa [("jmz", Val.a2 [[2]])] 1 1 1 1 300 1 none "z").2 = none ∧
    headZeroKey (get_gkma_kappa [("jmz", Val.a2 [[2]])] 1 1 1 1 300 1 none "z").1 "kmz" :=
  have hok : (get_gkma_kappa [("jmz", Val.a2 [[2]])] 1 1 1 1 300 1 none "z").2 = none := by
    have hx : ¬ ('x' ∈ get_direction "z") := by decide
    have hy : ¬ ('y' ∈ get_direction "z") := by decide
    have hz : 'z' ∈ get_direction "z" := by decide
    have hr1 : List.range 1 = [0] := rfl
    norm_num [get_gkma_kappa, pyLinspace, chain, rescaleTau, block1, loop1, getArr2,
      getRow_zero, setRow, corr, cumtrapz, ctGo, npSum0, zeros2, zerosRow, dinsert, dlookup,
      dset, hx, hy, hz, hr1, getBang_cons_zero]
  ⟨hok, (C2_zero_seeded [("jmz", Val.a2 [[2]])] 1 1 1 1 300 1 none "z" hok).2.2 (by decide)⟩


/-- State of the dataset right after the lag axis is written (line 109 of
calc.py), before any direction check runs. -/
def gkSt0 (data : DataDict) (nsamples : ℕ) (dt : ℚ) (si : ℕ) (max_tau : Option ℚ) : DataDict :=
  dinsert data "tau" (.a1 (gkTauFs nsamples dt si max_tau))

/-- The x direction block of get_gkma_kappa as a step on the dataset state:
the block runs when x is requested and is the identity otherwise. -/
def gkStepX (st : DataDict) (nbins nsamples : ℕ) (dt : ℚ) (si : ℕ) (T vol : ℚ)
    (max_tau : Option ℚ) (directions : String) : DataDict × Option Err :=
  if 'x' ∈ get_direction directions then
    block2 st "jmxi" "jmxo" "corr_xmi_x" "corr_xmo_x" "kmxi" "kmxo"
      "x direction data is missing" nbins (gkMaxLag nsamples dt si max_tau + 1).toNat
      (gkTauFs nsamples dt si max_tau) (gkMaxLag nsamples dt si max_tau) (__scale_gpumd_tc vol T)
  else (st, none)

/-- The y direction block of get_gkma_kappa as a step on the dataset state. -/
def gkStepY (st : DataDict) (nbins nsamples : ℕ) (dt : ℚ) (si : ℕ) (T vol : ℚ)
    (max_tau : Option ℚ) (directions : String) : DataDict × Option Err :=
  if 'y' ∈ get_direction directions then
    block2 st "jmyi" "jmyo" "corr_ymi_y" "corr_ymo_y" "kmyi" "kmyo"
      "y direction data is missing" nbins (gkMaxLag nsamples dt si max_tau + 1).toNat
      (gkTauFs nsamples dt si max_tau) (gkMaxLag nsamples dt si max_tau) (__scale_gpumd_tc vol T)
  else (st, none)

/-- The z direction block of get_gkma_kappa as a step on the dataset state. -/
def gkStepZ (st : DataDict) (nbins nsamples : ℕ) (dt : ℚ) (si : ℕ) (T vol : ℚ)
    (max_tau : Option ℚ) (directions : String) : DataDict × Option Err :=
  if 'z' ∈ get_direction directions then
    block1 st "jmz" "corr_zm_z" "kmz"
      "z direction data is missing" nbins (gkMaxLag nsamples dt si max_tau + 1).toNat
      (gkTauFs nsamples dt si max_tau) (gkMaxLag nsamples dt si max_tau) (__scale_gpumd_tc vol T)
  else (st, none)

theorem get_gkma_kappa_run_steps (data : DataDict) (nbins nsamples : ℕ) (dt : ℚ) (si : ℕ)
    (T vol : ℚ) (max_tau : Option ℚ) (directions : String)
    (hTv : ¬ (T * T * vol = 0)) (hsr : ¬ ((si : ℚ) * dt = 0))
    (hsize : ¬ (gkMaxLag nsamples dt si max_tau + 1 < 0)) :
    get_gkma_kappa data nbins nsamples dt si T vol max_tau directions =
      chain (chain (chain
        (gkStepX (gkSt0 data nsamples dt si max_tau) nbins nsamples dt si T vol max_tau directions)
        (fun st => gkStepY st nbins nsamples dt si T vol max_tau directions))
        (fun st => gkStepZ st nbins nsamples dt si T vol max_tau directions))
        (fun st => (rescaleTau st, none)) := by
  rw [get_gkma_kappa_run data nbins nsamples dt si T vol max_tau directions hTv hsr hsize]
  rfl

theorem gkStepX_frame (st : DataDict) (nbins nsamples : ℕ) (dt : ℚ) (si : ℕ) (T vol : ℚ)
    (max_tau : Option ℚ) (directions : String) (q : String)
    (h1 : q ≠ "corr_xmi_x") (h2 : q ≠ "corr_xmo_x") (h3 : q ≠ "kmxi") (h4 : q ≠ "kmxo") :
    dlookup (gkStepX st nbins nsamples dt si T vol max_tau directions).1 q = dlookup st q := by
  unfold gkStepX
  exact ifblock2_frame _ _ _ _ _ _ _ _ _ _ _ _ _ _ _ h1 h2 h3 h4

theorem gkStepY_frame (st : DataDict) (nbins nsamples : ℕ) (dt : ℚ) (si : ℕ) (T vol : ℚ)
    (max_tau : Option ℚ) (directions : String) (q : String)
    (h1 : q ≠ "corr_ymi_y") (h2 : q ≠ "corr_ymo_y") (h3 : q ≠ "kmyi") (h4 : q ≠ "kmyo") :
    dlookup (gkStepY st nbins nsamples dt si T vol max_tau directions).1 q = dlookup st q := by
  unfold gkStepY
  exact ifblock2_frame _ _ _ _ _ _ _ _ _ _ _ _ _ _ _ h1 h2 h3 h4

theorem gkma_missing_x_case (data : DataDict) (nbins nsamples : ℕ) (dt : ℚ) (si : ℕ)
    (T vol : ℚ) (max_tau : Option ℚ) (directions : String)
    (hTv : ¬ (T * T * vol = 0)) (hsr : ¬ ((si : ℚ) * dt = 0))
    (hsize : ¬ (gkMaxLag nsamples dt si max_tau + 1 < 0))
    (hxm : 'x' ∈ get_direction directions)
    (hmiss : dlookup data "jmxi" = none ∨ dlookup data "jmxo" = none) :
    (get_gkma_kappa data nbins nsamples dt si T vol max_tau directions).2 =
      some (.valueError "x direction data is missing") ∧
    (dlookup (get_gkma_kappa data nbins nsamples dt si T vol max_tau directions).1 "tau").isSome = true ∧
    (∀ q : String, q ≠ "tau" →
      dlookup (get_gkma_kappa data nbins nsamples dt si T vol max_tau directions).1 q =
        dlookup data q) := by
  rw [get_gkma_kappa_run_steps data nbins nsamples dt si T vol max_tau directions hTv hsr hsize]
  have hm2 : (dlookup (gkSt0 data nsamples dt si max_tau) "jmxi").isSome = false ∨
      (dlookup (gkSt0 data nsamples dt si max_tau) "jmxo").isSome = false := by
    rcases hmiss with h | h
    · left
      simp only [gkSt0]
      rw [dlookup_dinsert_ne _ _ _ _ (by decide), h]
      rfl
    · right
      simp only [gkSt0]
      rw [dlookup_dinsert_ne _ _ _ _ (by decide), h]
      rfl
  have hx1 : gkStepX (gkSt0 data nsamples dt si max_tau) nbins nsamples dt si T vol max_tau
      directions = (gkSt0 data nsamples dt si max_tau,
        some (.valueError "x direction data is missing")) := by
    unfold gkStepX
    rw [if_pos hxm]
    exact block2_missing _ _ _ _ _ _ _ _ _ _ _ _ _ hm2
  rw [hx1, chain_snd_some rfl, chain_snd_some rfl, chain_snd_some rfl]
  refine ⟨rfl, ?_, ?_⟩
  · simp only [gkSt0]
    rw [dlookup_dinsert, if_pos rfl]
    rfl
  · intro q hq
    simp only [gkSt0]
    exact dlookup_dinsert_ne _ _ _ _ hq

theorem gkma_missing_y_case (data : DataDict) (nbins nsamples : ℕ) (dt : ℚ) (si : ℕ)
    (T vol : ℚ) (max_tau : Option ℚ) (directions : String)
    (hTv : ¬ (T * T * vol = 0)) (hsr : ¬ ((si : ℚ) * dt = 0))
    (hsize : ¬ (gkMaxLag nsamples dt si max_tau + 1 < 0))
    (hym : 'y' ∈ get_direction directions)
    (hmiss : dlookup data "jmyi" = none ∨ dlookup data "jmyo" = none)
    (hxok : (gkStepX (gkSt0 data nsamples dt si max_tau) nbins nsamples dt si T vol max_tau
      directions).2 = none) :
    (get_gkma_kappa data nbins nsamples dt si T vol max_tau directions).2 =
      some (.valueError "y direction data is missing") ∧
    (dlookup (get_gkma_kappa data nbins nsamples dt si T vol max_tau directions).1 "tau").isSome = true ∧
    (∀ q : String, q ≠ "tau" → q ≠ "corr_xmi_x" → q ≠ "corr_xmo_x" → q ≠ "kmxi" → q ≠ "kmxo" →
      dlookup (get_gkma_kappa data nbins nsamples dt si T vol max_tau directions).1 q =
        dlookup data q) := by
  rw [get_gkma_kappa_run_steps data nbins nsamples dt si T vol max_tau directions hTv hsr hsize]
  have hm2 : (dlookup (gkStepX (gkSt0 data nsamples dt si max_tau) nbins nsamples dt si T vol
        max_tau directions).1 "jmyi").isSome = false ∨
      (dlookup (gkStepX (gkSt0 data nsamples dt si max_tau) nbins nsamples dt si T vol
        max_tau directions).1 "jmyo").isSome = false := by
    rcases hmiss with h | h
    · left
      rw [gkStepX_frame _ _ _ _ _ _ _ _ _ _ (by decide) (by decide) (by decide) (by decide)]
      simp only [gkSt0]
      rw [dlookup_dinsert_ne _ _ _ _ (by decide), h]
      rfl
    · right
      rw [gkStepX_frame _ _ _ _ _ _ _ _ _ _ (by decide) (by decide) (by decide) (by decide)]
      simp only [gkSt0]
      rw [dlookup_dinsert_ne _ _ _ _ (by decide), h]
      rfl
  have hyeq : gkStepY (gkStepX (gkSt0 data nsamples dt si max_tau) nbins nsamples dt si T vol
      max_tau directions).1 nbins nsamples dt si T vol max_tau directions =
      ((gkStepX (gkSt0 data nsamples dt si max_tau) nbins nsamples dt si T vol max_tau
        directions).1, some (.valueError "y direction data is missing")) := by
    unfold gkStepY
    rw [if_pos hym]
    exact block2_missing _ _ _ _ _ _ _ _ _ _ _ _ _ hm2
  rw [chain_snd_none hxok]
  rw [hyeq, chain_snd_some rfl, chain_snd_some rfl]
  refine ⟨rfl, ?_, ?_⟩
  · rw [gkStepX_frame _ _ _ _ _ _ _ _ _ _ (by decide) (by decide) (by decide) (by decide)]
    simp only [gkSt0]
    rw [dlookup_dinsert, if_pos rfl]
    rfl
  · intro q h0 h1 h2 h3 h4
    rw [gkStepX_frame _ _ _ _ _ _ _ _ _ _ h1 h2 h3 h4]
    simp only [gkSt0]
    exact dlookup_dinsert_ne _ _ _ _ h0

theorem gkma_missing_z_case (data : DataDict) (nbins nsamples : ℕ) (dt : ℚ) (si : ℕ)
    (T vol : ℚ) (max_tau : Option ℚ) (directions : String)
    (hTv : ¬ (T * T * vol = 0)) (hsr : ¬ ((si : ℚ) * dt = 0))
    (hsize : ¬ (gkMaxLag nsamples dt si max_tau + 1 < 0))
    (hzm : 'z' ∈ get_direction directions)
    (hmiss : dlookup data "jmz" = none)
    (hxyok : (chain (gkStepX (gkSt0 data nsamples dt si max_tau) nbins nsamples dt si T vol
      max_tau directions)
      (fun st => gkStepY st nbins nsamples dt si T vol max_tau directions)).2 = none) :
    (get_gkma_kappa data nbins nsamples dt si T vol max_tau directions).2 =
      some (.valueError "z direction data is missing") ∧
    (dlookup (get_gkma_kappa data nbins nsamples dt si T vol max_tau directions).1 "tau").isSome = true ∧
    (∀ q : String, q ≠ "tau" → q ≠ "corr_xmi_x" → q ≠ "corr_xmo_x" → q ≠ "kmxi" → q ≠ "kmxo" →
      q ≠ "corr_ymi_y" → q ≠ "corr_ymo_y" → q ≠ "kmyi" → q ≠ "kmyo" →
      dlookup (get_gkma_kappa data nbins nsamples dt si T vol max_tau directions).1 q =
        dlookup data q) := by
  rw [get_gkma_kappa_run_steps data nbins nsamples dt si T vol max_tau directions hTv hsr hsize]
  have hsplit := chain_none_split hxyok
  have hyok : (gkStepY (gkStepX (gkSt0 data nsamples dt si max_tau) nbins nsamples dt si T vol
      max_tau directions).1 nbins nsamples dt si T vol max_tau directions).2 = none :=
    hsplit.2.2
  have hm : (dlookup (gkStepY (gkStepX (gkSt0 data nsamples dt si max_tau) nbins nsamples dt si
      T vol max_tau directions).1 nbins nsamples dt si T vol max_tau directions).1
      "jmz").isSome = false := by
    rw [gkStepY_frame _ _ _ _ _ _ _ _ _ _ (by decide) (by decide) (by decide) (by decide),
      gkStepX_frame _ _ _ _ _ _ _ _ _ _ (by decide) (by decide) (by decide) (by decide)]
    simp only [gkSt0]
    rw [dlookup_dinsert_ne _ _ _ _ (by decide), hmiss]
    rfl
  have hzeq : gkStepZ (gkStepY (gkStepX (gkSt0 data nsamples dt si max_tau) nbins nsamples dt si
      T vol max_tau directions).1 nbins nsamples dt si T vol max_tau directions).1
      nbins nsamples dt si T vol max_tau directions =
      ((gkStepY (gkStepX (gkSt0 data nsamples dt si max_tau) nbins nsamples dt si T vol max_tau
        directions).1 nbins nsamples dt si T vol max_tau directions).1,
        some (.valueError "z direction data is missing")) := by
    unfold gkStepZ
    rw [if_pos hzm]
    exact block1_missing _ _ _ _ _ _ _ _ _ _ hm
  rw [hsplit.2.1]
  rw [chain_snd_none hyok]
  rw [hzeq, chain_snd_some rfl]
  refine ⟨rfl, ?_, ?_⟩
  · rw [gkStepY_frame _ _ _ _ _ _ _ _ _ _ (by decide) (by decide) (by decide) (by decide),
      gkStepX_frame _ _ _ _ _ _ _ _ _ _ (by decide) (by decide) (by decide) (by decide)]
    simp only [gkSt0]
    rw [dlookup_dinsert, if_pos rfl]
    rfl
  · intro q h0 hx1 hx2 hx3 hx4 hy1 hy2 hy3 hy4
    rw [gkStepY_frame _ _ _ _ _ _ _ _ _ _ hy1 hy2 hy3 hy4,
      gkStepX_frame _ _ _ _ _ _ _ _ _ _ hx1 hx2 hx3 hx4]
    simp only [gkSt0]
    exact dlookup_dinsert_ne _ _ _ _ h0

/-- C5 counterexample: for the dataset lacking jmxi with directions x, the
MissingData ValueError is raised, but the lag axis has already been written:
the exit dictionary contains a tau key that the input (empty) dictionary did
not, so an array is added to the dataset before the error. -/
theorem C5_counterexample :
    (get_gkma_kappa [] 1 2 1 1 300 1 none "x").2 =
      some (.valueError "x direction data is missing") ∧
    (dlookup (get_gkma_kappa [] 1 2 1 1 300 1 none "x").1 "tau").isSome = true ∧
    dlookup ([] : DataDict) "tau" = none := by
  have h := gkma_missing_x_case [] 1 2 1 1 300 1 none "x" (by norm_num) (by norm_num)
    (by norm_num [gkMaxLag, gkMt]) (by decide) (Or.inl rfl)
  exact ⟨h.1, h.2.1, rfl⟩

/-- C5 amended: with valid scale, sampling and lag parameters, a missing
required channel of any requested direction (jmxi or jmxo for x, jmyi or
jmyo for y, jmz for z) makes get_gkma_kappa raise that direction's
ValueError at its direction check, provided no earlier direction block has
already raised; the whole call aborts and no correlation or conductivity
array of the failing or of any later direction is allocated or added.
However the lag-time axis tau has already been written into the dataset
before the checks, and the results of earlier completed directions remain,
so the aborted call leaves that partial output behind. -/
theorem C5_missing_channel (data : DataDict) (nbins nsamples : ℕ) (dt : ℚ) (sample_interval : ℕ)
    (T vol : ℚ) (max_tau : Option ℚ) (directions : String)
    (hTv : ¬ (T * T * vol = 0)) (hsr : ¬ ((sample_interval : ℚ) * dt = 0))
    (hsize : ¬ (gkMaxLag nsamples dt sample_interval max_tau + 1 < 0)) :
    ('x' ∈ get_direction directions →
      (dlookup data "jmxi" = none ∨ dlookup data "jmxo" = none) →
      (get_gkma_kappa data nbins nsamples dt sample_interval T vol max_tau directions).2 =
        some (.valueError "x direction data is missing") ∧
      (dlookup (get_gkma_kappa data nbins nsamples dt sample_interval T vol max_tau directions).1 "tau").isSome = true ∧
      (∀ q : String, q ≠ "tau" →
        dlookup (get_gkma_kappa data nbins nsamples dt sample_interval T vol max_tau directions).1 q =
          dlookup data q)) ∧
    ('y' ∈ get_direction directions →
      (dlookup data "jmyi" = none ∨ dlookup data "jmyo" = none) →
      (gkStepX (gkSt0 data nsamples dt sample_interval max_tau) nbins nsamples dt sample_interval
        T vol max_tau directions).2 = none →
      (get_gkma_kappa data nbins nsamples dt sample_interval T vol max_tau directions).2 =
        some (.valueError "y direction data is missing") ∧
      (dlookup (get_gkma_kappa data nbins nsamples dt sample_interval T vol max_tau directions).1 "tau").isSome = true ∧
      (∀ q : String, q ≠ "tau" → q ≠ "corr_xmi_x" → q ≠ "corr_xmo_x" → q ≠ "kmxi" → q ≠ "kmxo" →
        dlookup (get_gkma_kappa data nbins nsamples dt sample_interval T vol max_tau directions).1 q =
          dlookup data q)) ∧
    ('z' ∈ get_direction directions →
      dlookup data "jmz" = none →
      (chain (gkStepX (gkSt0 data nsamples dt sample_interval max_tau) nbins nsamples dt
        sample_interval T vol max_tau directions)
        (fun st => gkStepY st nbins nsamples dt sample_interval T vol max_tau directions)).2 = none →
      (get_gkma_kappa data nbins nsamples dt sample_interval T vol max_tau directions).2 =
        some (.valueError "z direction data is missing") ∧
      (dlookup (get_gkma_kappa data nbins nsamples dt sample_interval T vol max_tau directions).1 "tau").isSome = true ∧
      (∀ q : String, q ≠ "tau" → q ≠ "corr_xmi_x" → q ≠ "corr_xmo_x" → q ≠ "kmxi" → q ≠ "kmxo" →
        q ≠ "corr_ymi_y" → q ≠ "corr_ymo_y" → q ≠ "kmyi" → q ≠ "kmyo" →
        dlookup (get_gkma_kappa data nbins nsamples dt sample_interval T vol max_tau directions).1 q =
          dlookup data q)) :=
  ⟨fun hxm hmiss =>
    gkma_missing_x_case data nbins nsamples dt sample_interval T vol max_tau directions
      hTv hsr hsize hxm hmiss,
   fun hym hmiss hxok =>
    gkma_missing_y_case data nbins nsamples dt sample_interval T vol max_tau directions
      hTv hsr hsize hym hmiss hxok,
   fun hzm hmiss hxyok =>
    gkma_missing_z_case data nbins nsamples dt sample_interval T vol max_tau directions
      hTv hsr hsize hzm hmiss hxyok⟩

theorem C5_missing_channel_witness :
    (get_gkma_kappa [("jmxo", Val.a2 [[1]])] 1 2 1 1 300 1 none "x").2 =
      some (.valueError "x direction data is missing") ∧
    (dlookup (get_gkma_kappa [("jmxo", Val.a2 [[1]])] 1 2 1 1 300 1 none "x").1 "tau").isSome = true ∧
    dlookup (get_gkma_kappa [("jmxo", Val.a2 [[1]])] 1 2 1 1 300 1 none "x").1 "kmxi" =
      dlookup [("jmxo", Val.a2 [[1]])] "kmxi" ∧
    (get_gkma_kappa [("jmyo", Val.a2 [[1]])] 1 2 1 1 300 1 none "y").2 =
      some (.valueError "y direction data is missing") ∧
    dlookup (get_gkma_kappa [("jmyo", Val.a2 [[1]])] 1 2 1 1 300 1 none "y").1 "kmyi" =
      dlookup [("jmyo", Val.a2 [[1]])] "kmyi" ∧
    (get_gkma_kappa [] 1 2 1 1 300 1 none "z").2 =
      some (.valueError "z direction data is missing") ∧
    dlookup (get_gkma_kappa [] 1 2 1 1 300 1 none "z").1 "kmz" =
      dlookup ([] : DataDict) "kmz" := by
  have hx := (C5_missing_channel [("jmxo", Val.a2 [[1]])] 1 2 1 1 300 1 none "x"
    (by norm_num) (by norm_num) (by norm_num [gkMaxLag, gkMt])).1
    (by decide) (Or.inl (by simp [dlookup]))
  have hxok : (gkStepX (gkSt0 [("jmyo", Val.a2 [[1]])] 2 1 1 none) 1 2 1 1 300 1 none "y").2 =
      none := by
    unfold gkStepX
    rw [if_neg (by decide)]
  have hy := (C5_missing_channel [("jmyo", Val.a2 [[1]])] 1 2 1 1 300 1 none "y"
    (by norm_num) (by norm_num) (by norm_num [gkMaxLag, gkMt])).2.1
    (by decide) (Or.inl (by simp [dlookup])) hxok
  have hxok2 : (gkStepX (gkSt0 [] 2 1 1 none) 1 2 1 1 300 1 none "z").2 = none := by
    unfold gkStepX
    rw [if_neg (by decide)]
  have hxyok : (chain (gkStepX (gkSt0 [] 2 1 1 none) 1 2 1 1 300 1 none "z")
      (fun st => gkStepY st 1 2 1 1 300 1 none "z")).2 = none := by
    rw [chain_snd_none hxok2]
    unfold gkStepY
    rw [if_neg (by decide)]
  have hz := (C5_missing_channel [] 1 2 1 1 300 1 none "z"
    (by norm_num) (by norm_num) (by norm_num [gkMaxLag, gkMt])).2.2
    (by decide) rfl hxyok
  exact ⟨hx.1, hx.2.1, hx.2.2 "kmxi" (by decide),
    hy.1, hy.2.2 "kmyi" (by decide) (by decide) (by decide) (by decide) (by decide),
    hz.1, hz.2.2 "kmz" (by decide) (by decide) (by decide) (by decide) (by decide)
      (by decide) (by decide) (by decide) (by decide)⟩

/-- C6 counterexample: a call with a strictly negative max_tau that
nevertheless completes with no error: max_tau = -1e-7 nanoseconds gives max
lag -1, the lag axis is empty, and with zero mode bins the whole call runs
to the end, so a negative max_tau does not always raise. -/
theorem C6_counterexample :
    ((-1e-7 : ℚ) < 0) ∧
    (get_gkma_kappa [("jmxi", Val.a2 []), ("jmxo", Val.a2 [])] 0 5 1 1 300 1
      (some (-1e-7)) "x").2 = none := by
  constructor
  · norm_num
  · rw [get_gkma_kappa_run [("jmxi", Val.a2 []), ("jmxo", Val.a2 [])] 0 5 1 1 300 1
      (some (-1e-7)) "x" (by norm_num) (by norm_num) (by norm_num [gkMaxLag, gkMt])]
    have hxm : 'x' ∈ get_direction "x" := by decide
    have hy : ¬ ('y' ∈ get_direction "x") := by decide
    have hz : ¬ ('z' ∈ get_direction "x") := by decide
    simp [chain, block2, getArr2, dinsert, dlookup, dset, npSum0, add2, addVec,
      zeros2, zerosRow, loop2, hxm, hy, hz]

/-- C6 amended: a negative max_tau raises a ValueError at the lag-axis
construction, with the dataset untouched, exactly when the resulting max
lag is at most -2 (the linspace sample count max_lag + 1 is negative); at
max lag exactly -1 the axis is empty and no error is raised there. -/
theorem C6_negative_max_tau (data : DataDict) (nbins nsamples : ℕ) (dt : ℚ) (sample_interval : ℕ)
    (T vol : ℚ) (mtv : ℚ) (directions : String)
    (hTv : ¬ (T * T * vol = 0)) (hsr : ¬ ((sample_interval : ℚ) * dt = 0))
    (hneg : gkMaxLag nsamples dt sample_interval (some mtv) ≤ -2) :
    get_gkma_kappa data nbins nsamples dt sample_interval T vol (some mtv) directions =
      (data, some (.valueError "Number of samples must be non-negative")) :=
  get_gkma_kappa_neg_size data nbins nsamples dt sample_interval T vol (some mtv) directions
    hTv hsr (by omega)

theorem C6_negative_max_tau_witness :
    get_gkma_kappa [] 0 5 1 1 300 1 (some (-1)) "xyz" =
      ([], some (.valueError "Number of samples must be non-negative")) :=
  C6_negative_max_tau [] 0 5 1 1 300 1 (-1) "xyz" (by norm_num) (by norm_num)
    (by norm_num [gkMaxLag, gkMt])
